import Mathlib

/-!
Feature layer metadata: `packages/featureserver/src/helpers/feature-layer-metadata.js`.

A shallow embedding of the feature-layer metadata builder of Koop's FeatureServer package.

The module is JavaScript over dynamically typed data, so the embedding works on a type of
plain JavaScript values (`JSVal`): `undefined`, `null`, booleans, numbers (finite, `NaN`,
`±Infinity`), strings, arrays and plain objects.  Values are compared by content; functions,
getters, proxies and object identity are outside the model.  A finite number is a rational
(only order and equality of numbers matter to this module, never arithmetic); a string is a
sequence of characters, each standing for one UTF-16 code unit.

Everything the module imports (`@turf/envelope`, `lodash`, `./table-layer-metadata`,
`./renderers`, `../log-manager`, `./get-spatial-reference`,
`./get-geometry-type-from-geojson`, `./normalize-extent`, `../metadata-defaults`) is a
parameter, collected in `Env`.  A collaborator is a function that returns a value or throws
one; the log records the debug events this module itself sends to the logger.
-/

namespace Koop

/-! ## JavaScript values -/

/-- A JavaScript number: `NaN`, the two infinities, or a finite value. -/
inductive JSNum where
  | nan
  | posInf
  | negInf
  | fin (q : ℚ)
  deriving DecidableEq

/-- A plain JavaScript value.  An array carries its elements and, separately, the named
(non-index) properties that may have been attached to it. -/
inductive JSVal where
  | undefined
  | null
  | bool (b : Bool)
  | num (n : JSNum)
  | str (s : String)
  | arr (items : List JSVal) (props : List (String × JSVal))
  | obj (fields : List (String × JSVal))

/-- The own properties of an object, in insertion order. -/
abbrev Fields := List (String × JSVal)

/-- A finite number as a value. -/
def jsNum (q : ℚ) : JSVal := .num (.fin q)

/-- An array literal. -/
def jsArr (items : List JSVal) : JSVal := .arr items []

/-- Reading `o[k]` of an object given by its own properties: `undefined` when absent. -/
def getField : Fields → String → JSVal
  | [], _ => .undefined
  | (k', v) :: rest, k => if k' = k then v else getField rest k

/-- The test `k in o` on own properties. -/
def hasField : Fields → String → Bool
  | [], _ => false
  | (k', _) :: rest, k => if k' = k then true else hasField rest k

/-- The assignment `o[k] = v`: replaces the value of an existing key in place, otherwise
appends the key. -/
def setField : Fields → String → JSVal → Fields
  | [], k, v => [(k, v)]
  | (k', v') :: rest, k, v =>
    if k' = k then (k, v) :: rest else (k', v') :: setField rest k v

/-- An error object as created by `new Error(message)` or by the engine (`TypeError`). -/
def mkError (name message : String) : JSVal :=
  .obj [("name", .str name), ("message", .str message)]

/-- The `TypeError` the engine throws; the message text is engine specific. -/
def typeError (message : String) : JSVal := mkError "TypeError" message

/-- The index keys `"0"`, `"1"`, ... of an array paired with its elements. -/
def indexEntries (items : List JSVal) : Fields :=
  (List.range items.length).zip items |>.map fun (i, v) => (toString i, v)

/-- Property read `v.k` (also one step of object destructuring).  Throws a `TypeError` on
`undefined` and `null`; primitives have no own data properties apart from the `length` of a
string.  The property names this module reads are fixed identifiers, none of them inherited
from a prototype as data. -/
def getProp (v : JSVal) (k : String) : Except JSVal JSVal :=
  match v with
  | .undefined => .error (typeError ("Cannot read properties of undefined, reading " ++ k))
  | .null => .error (typeError ("Cannot read properties of null, reading " ++ k))
  | .bool _ => .ok .undefined
  | .num _ => .ok .undefined
  | .str s => if k = "length" then .ok (jsNum s.length) else .ok .undefined
  | .arr items props =>
    if k = "length" then .ok (jsNum items.length)
    else if hasField (indexEntries items) k then .ok (getField (indexEntries items) k)
    else .ok (getField props k)
  | .obj fields => .ok (getField fields k)

/-- ECMAScript `ToBoolean`. -/
def toBoolean : JSVal → Bool
  | .undefined => false
  | .null => false
  | .bool b => b
  | .num .nan => false
  | .num (.fin q) => decide (q ≠ 0)
  | .num _ => true
  | .str s => decide (s ≠ "")
  | .arr _ _ => true
  | .obj _ => true

/-- The comparison `v === q` against a finite number literal. -/
def strictEqNum : JSVal → ℚ → Bool
  | .num (.fin x), q => decide (x = q)
  | _, _ => false

/-- The comparison `v === s` against a string literal. -/
def strictEqStr : JSVal → String → Bool
  | .str x, s => decide (x = s)
  | _, _ => false

/-- Whether a number is finite. -/
def JSNum.isFinite : JSNum → Bool
  | .fin _ => true
  | _ => false

/-- The own enumerable properties copied by object spread and `Object.assign`. -/
def ownEntries : JSVal → Fields
  | .obj fields => fields
  | .arr items props => indexEntries items ++ props
  | .str s => (List.range s.length).zip s.data |>.map fun (i, c) => (toString i, .str (String.singleton c))
  | _ => []

/-- Copies the entries of `src` onto `target`, later values winning (`Object.assign`, and
the second and later operands of an object spread). -/
def assignAll (target : Fields) (src : Fields) : Fields :=
  src.foldl (fun t kv => setField t kv.1 kv.2) target

/-! ## Outcomes: a value or a thrown value, and the debug events emitted -/

/-- The outcome of running a piece of the module: what it returned or threw, and the debug
messages it sent to the logger, oldest first. -/
structure Run (α : Type) where
  out : Except JSVal α
  log : List String

namespace Run

/-- Normal completion without logging. -/
def ret {α : Type} (a : α) : Run α := ⟨.ok a, []⟩

/-- Sequencing: the second part runs only if the first one returned; logs accumulate. -/
def andThen {α β : Type} (m : Run α) (f : α → Run β) : Run β :=
  match m.out with
  | .error e => ⟨.error e, m.log⟩
  | .ok a => ⟨(f a).out, m.log ++ (f a).log⟩

/-- A collaborator call: it returns or throws and emits nothing of this module. -/
def call {α : Type} (x : Except JSVal α) : Run α := ⟨x, []⟩

/-- The call `logger.debug(message)`. -/
def debug (message : String) : Run Unit := ⟨.ok (), [message]⟩

/-- The statement `try { body } catch (error) { handler }`. -/
def tryCatch {α : Type} (body : Run α) (handler : JSVal → Run α) : Run α :=
  match body.out with
  | .ok a => ⟨.ok a, body.log⟩
  | .error e => ⟨(handler e).out, body.log ++ (handler e).log⟩

instance : Monad Run where
  pure := ret
  bind := andThen

end Run

/-! ## The imported collaborators -/

/-- What the module imports.  None of it is part of the file under study. -/
structure Env where
  /-- The static `normalizeInput(geojson, options)` inherited from `TableLayerMetadata`. -/
  normalizeInput : JSVal → JSVal → Except JSVal JSVal
  /-- The instance as `super()` leaves it in the constructor. -/
  tableInstance : Fields
  /-- The method `super.mixinOverrides(geojson, options)`, as a transformer of the instance. -/
  tableMixinOverrides : Fields → JSVal → JSVal → Except JSVal Fields
  /-- The method `super._setDirectOverrides(options)`, as a transformer of the instance. -/
  tableSetDirectOverrides : Fields → JSVal → Except JSVal Fields
  /-- The result of `defaults.featureLayerDefaults()`. -/
  featureLayerDefaults : JSVal
  /-- The result of `new PointRenderer()`. -/
  pointRenderer : JSVal
  /-- The result of `new LineRenderer()`. -/
  lineRenderer : JSVal
  /-- The result of `new PolygonRenderer()`. -/
  polygonRenderer : JSVal
  /-- The function `envelope` of `@turf/envelope`. -/
  envelope : JSVal → Except JSVal JSVal
  /-- The function `getSpatialReference(geojson, options)`. -/
  getSpatialReference : JSVal → JSVal → Except JSVal JSVal
  /-- The function `getGeometryTypeFromGeojson(merged)`. -/
  getGeometryTypeFromGeojson : JSVal → Except JSVal JSVal
  /-- The function `normalizeExtent(extent, spatialReference)`. -/
  normalizeExtent : JSVal → JSVal → Except JSVal JSVal
  /-- ECMAScript `ToNumber` on strings, arrays and objects (numeric-literal parsing). -/
  toNumber : JSVal → JSNum
  /-- ECMAScript `ToString`, as applied by a template literal. -/
  toDisplayString : JSVal → String
  /-- The recursive case of lodash `merge` for an object-valued source property:
  `mergeDeep objValue srcValue` is the value stored under the key. -/
  mergeDeep : JSVal → JSVal → JSVal

/-- The global function `isFinite(v)`: `ToNumber` followed by the finiteness test. -/
def isFiniteJS (env : Env) : JSVal → Bool
  | .undefined => false
  | .null => true
  | .bool _ => true
  | .num n => n.isFinite
  | v => (env.toNumber v).isFinite

/-! ## `calculateExtentFromFeatures` and `getLayerExtent` -/

/-- The callback loop `bbox.forEach((coordinate) => { if (!isFinite(coordinate)) throw ... })`
over the elements of an array. -/
def checkCoordinates (env : Env) : List JSVal → Except JSVal Unit
  | [] => .ok ()
  | coordinate :: rest =>
    if !isFiniteJS env coordinate then
      .error (mkError "Error" "Feature does not contain valid geometry")
    else checkCoordinates env rest

/-- The call `bbox.forEach(callback)`: only an array has the method. -/
def forEachCoordinate (env : Env) (bbox : JSVal) : Except JSVal Unit :=
  match bbox with
  | .arr items _ => checkCoordinates env items
  | .undefined => .error (typeError "Cannot read properties of undefined, reading forEach")
  | .null => .error (typeError "Cannot read properties of null, reading forEach")
  | _ => .error (typeError "bbox.forEach is not a function")

/-- The element bound by position `i` of the array pattern `[xmin, ymin, xmax, ymax] = bbox`. -/
def arrayPatternGet (bbox : JSVal) (i : Nat) : JSVal :=
  match bbox with
  | .arr items _ => items.getD i .undefined
  | _ => .undefined

/-- The body of the `try` block of `calculateExtentFromFeatures`. -/
def extentFromEnvelope (env : Env) (geojson spatialReference : JSVal) : Except JSVal JSVal := do
  let bbox ← (env.envelope geojson) >>= (getProp · "bbox")
  forEachCoordinate env bbox
  let xmin := arrayPatternGet bbox 0
  let ymin := arrayPatternGet bbox 1
  let xmax := arrayPatternGet bbox 2
  let ymax := arrayPatternGet bbox 3
  return .obj [("xmin", xmin), ("xmax", xmax), ("ymin", ymin), ("ymax", ymax),
    ("spatialReference", spatialReference)]

/-- The function `calculateExtentFromFeatures(geojson, spatialReference)`; a bare `return`
and falling off the end both yield `undefined`. -/
def calculateExtentFromFeatures (env : Env) (geojson spatialReference : JSVal) : Run JSVal := do
  let features ← Run.call (getProp geojson "features")
  if !toBoolean features then
    return .undefined
  let length ← Run.call (getProp features "length")
  if strictEqNum length 0 then
    return .undefined
  Run.tryCatch (Run.call (extentFromEnvelope env geojson spatialReference)) fun error => do
    let message ← Run.call (getProp error "message")
    Run.debug ("Could not calculate extent from data: " ++ env.toDisplayString message)
    return .undefined

/-- The function `getLayerExtent(geojson, options)`. -/
def getLayerExtent (env : Env) (geojson options : JSVal) : Run JSVal := do
  let spatialReference ← Run.call (env.getSpatialReference geojson options)
  let extent ← Run.call (getProp options "extent")
  if toBoolean extent then
    Run.call (env.normalizeExtent extent spatialReference)
  else
    calculateExtentFromFeatures env geojson spatialReference

/-! ## The class `FeatureLayerMetadata` -/

/-- The constructor: `super()`, then `Object.assign(this, defaults.featureLayerDefaults())`. -/
def construct (env : Env) : Fields :=
  assignAll env.tableInstance (ownEntries env.featureLayerDefaults)

/-- The assignment `this.drawingInfo[key] = value` in strict mode (a class body): a
`TypeError` when `this.drawingInfo` is `undefined`, `null` or a primitive. -/
def setDrawingInfo (self : Fields) (key : String) (value : JSVal) : Except JSVal Fields :=
  match getField self "drawingInfo" with
  | .obj fields => .ok (setField self "drawingInfo" (.obj (setField fields key value)))
  | .arr items props => .ok (setField self "drawingInfo" (.arr items (setField props key value)))
  | .undefined => .error (typeError ("Cannot set properties of undefined, setting " ++ key))
  | .null => .error (typeError ("Cannot set properties of null, setting " ++ key))
  | _ => .error (typeError ("Cannot create property " ++ key))

/-- The private method `#_setExtent(geojson, options)`. -/
def _setExtent (env : Env) (self : Fields) (geojson options : JSVal) : Run Fields := do
  let extent ← getLayerExtent env geojson options
  if toBoolean extent then
    return setField self "extent" extent
  return self

/-- The private method `#_setRenderer(renderer)`. -/
def _setRenderer (env : Env) (self : Fields) (renderer : JSVal) : Except JSVal Fields :=
  if toBoolean renderer then
    setDrawingInfo self "renderer" renderer
  else if strictEqStr (getField self "geometryType") "esriGeometryPolygon" then
    setDrawingInfo self "renderer" env.polygonRenderer
  else if strictEqStr (getField self "geometryType") "esriGeometryPolyline" then
    setDrawingInfo self "renderer" env.lineRenderer
  else
    setDrawingInfo self "renderer" env.pointRenderer

/-- The private method `#_setLabelingInfo(labelingInfo)`. -/
def _setLabelingInfo (self : Fields) (labelingInfo : JSVal) : Except JSVal Fields :=
  if toBoolean labelingInfo then
    setDrawingInfo self "labelingInfo" labelingInfo
  else
    .ok self

/-- Whether lodash treats a source value as an object to merge into (`isObject`). -/
def isObject : JSVal → Bool
  | .arr _ _ => true
  | .obj _ => true
  | _ => false

/-- Modelled from the spec: one source property of lodash `merge` (lodash is imported, not
part of the module).  A source value that is `undefined` never replaces an existing
property (it only creates a missing key); any other primitive is assigned; an object or
array is merged recursively by `Env.mergeDeep`. -/
def mergeEntry (env : Env) (object : Fields) (key : String) (srcValue : JSVal) : Fields :=
  if isObject srcValue then
    setField object key (env.mergeDeep (getField object key) srcValue)
  else
    match srcValue with
    | .undefined => if hasField object key then object else setField object key .undefined
    | value => setField object key value

/-- Modelled from the spec: lodash `merge(object, source)` for a plain source object, its
properties visited in order ("merge defined fields only"). -/
def merge (env : Env) (object : Fields) (source : Fields) : Fields :=
  source.foldl (fun o kv => mergeEntry env o kv.1 kv.2) object

/-- The private method `#_setDirectOverrides(options)`. -/
def _setDirectOverrides (env : Env) (self : Fields) (options : JSVal) : Except JSVal Fields := do
  let self ← env.tableSetDirectOverrides self options
  let minScale ← getProp options "minScale"
  let maxScale ← getProp options "maxScale"
  return merge env self [("minScale", minScale), ("maxScale", maxScale)]

/-- The default `= {}` of a parameter or of a destructured property: it applies to
`undefined` only. -/
def orEmptyObject : JSVal → JSVal
  | .undefined => .obj []
  | v => v

/-- The object spread `{ ...geojson, ...options }`. -/
def spread (geojson options : JSVal) : JSVal :=
  .obj (assignAll (assignAll [] (ownEntries geojson)) (ownEntries options))

/-- The object literal `{ inputCrs, sourceSR, extent }` handed to `#_setExtent`. -/
def extentOptions (inputCrs sourceSR extent : JSVal) : JSVal :=
  .obj [("inputCrs", inputCrs), ("sourceSR", sourceSR), ("extent", extent)]

/-- The method `mixinOverrides(geojson, options = {})`, as a transformer of the instance. -/
def mixinOverrides (env : Env) (self : Fields) (geojson optionsArg : JSVal) : Run Fields := do
  let options := orEmptyObject optionsArg
  let self ← Run.call (env.tableMixinOverrides self geojson options)
  let renderer ← Run.call (getProp options "renderer")
  let labelingInfo ← Run.call (getProp options "labelingInfo")
  let extent ← Run.call (getProp options "extent")
  let inputCrs ← Run.call (getProp options "inputCrs")
  let sourceSR ← Run.call (getProp options "sourceSR")
  let capabilities ← Run.call ((getProp options "capabilities").map orEmptyObject)
  let geometryType ← Run.call (env.getGeometryTypeFromGeojson (spread geojson options))
  let self := setField self "geometryType" geometryType
  let quantization ← Run.call (getProp capabilities "quantization")
  let self := setField self "supportsCoordinatesQuantization" (.bool (toBoolean quantization))
  let self ← _setExtent env self geojson (extentOptions inputCrs sourceSR extent)
  let self ← Run.call (_setRenderer env self renderer)
  let self ← Run.call (_setLabelingInfo self labelingInfo)
  let self ← Run.call (_setDirectOverrides env self options)
  return self

/-- The static method `FeatureLayerMetadata.create(geojson, options)`. -/
def create (env : Env) (geojson options : JSVal) : Run Fields := do
  let normalized ← Run.call (env.normalizeInput geojson options)
  let normalizedGeojson ← Run.call (getProp normalized "geojson")
  let normalizedOptions ← Run.call (getProp normalized "options")
  mixinOverrides env (construct env) normalizedGeojson normalizedOptions

/-! ## The envelope routine -/

/-- The comparison `a < b` of two numbers; every comparison with `NaN` is false. -/
def JSNum.lt : JSNum → JSNum → Bool
  | .nan, _ => false
  | _, .nan => false
  | .fin a, .fin b => decide (a < b)
  | .negInf, .negInf => false
  | .negInf, _ => true
  | _, .negInf => false
  | .posInf, _ => false
  | .fin _, .posInf => true

/-- Modelled from the spec: a lower bound of the envelope, moved by a coordinate that lies
below it. -/
def lowerBound (result coord : JSNum) : JSNum :=
  if JSNum.lt coord result then coord else result

/-- Modelled from the spec: an upper bound of the envelope, moved by a coordinate that lies
above it. -/
def upperBound (result coord : JSNum) : JSNum :=
  if JSNum.lt result coord then coord else result

/-- Modelled from the spec: the first two entries of a position of the document handed to
the envelope routine; they must be numbers. -/
def coordinatePair : JSVal → Except JSVal (JSNum × JSNum)
  | .arr (.num x :: .num y :: _) _ => .ok (x, y)
  | _ => .error (mkError "Error" "coordinates must contain numbers")

/-- Modelled from the spec: the positions of a coordinates member nested `depth` arrays
deep. -/
def positionsAt : Nat → JSVal → Except JSVal (List (JSNum × JSNum))
  | 0, v => (coordinatePair v).map fun p => [p]
  | depth + 1, .arr items _ => (items.mapM (positionsAt depth)).map List.flatten
  | _ + 1, _ => .error (mkError "Error" "coordinates must be an array")

/-- Modelled from the spec: how deep the positions of each GeoJSON geometry type are
nested. -/
def coordinateDepth (type : String) : Option Nat :=
  if type = "Point" then some 0
  else if type = "MultiPoint" ∨ type = "LineString" then some 1
  else if type = "Polygon" ∨ type = "MultiLineString" then some 2
  else if type = "MultiPolygon" then some 3
  else none

/-- Modelled from the spec: the positions of a geometry seen by the envelope routine; a
`null` geometry has none, and a geometry collection has those of its members (`fuel` bounds
the nesting of collections). -/
def geometryPositions : Nat → JSVal → Except JSVal (List (JSNum × JSNum))
  | _, .null => .ok []
  | fuel, .obj fields =>
    match getField fields "type" with
    | .str type =>
      match coordinateDepth type with
      | some depth => positionsAt depth (getField fields "coordinates")
      | none =>
        match fuel, type, getField fields "geometries" with
        | fuel + 1, "GeometryCollection", .arr geometries _ =>
          (geometries.mapM (geometryPositions fuel)).map List.flatten
        | _, _, _ => .error (mkError "Error" "Unknown Geometry Type")
    | _ => .error (mkError "Error" "Unknown Geometry Type")
  | _, _ => .error (mkError "Error" "Unknown Geometry Type")

/-- Modelled from the spec: the positions of a feature, those of its geometry. -/
def featurePositions (fuel : Nat) (feature : JSVal) : Except JSVal (List (JSNum × JSNum)) :=
  (getProp feature "geometry") >>= geometryPositions fuel

/-- How deeply arrays and objects are nested in a value. -/
def JSVal.nesting : JSVal → Nat
  | .arr items props => 1 + max (nestingList items) (nestingFields props)
  | .obj fields => 1 + nestingFields fields
  | _ => 0
where
  /-- The deepest nesting among the elements of a list. -/
  nestingList : List JSVal → Nat
    | [] => 0
    | v :: rest => max v.nesting (nestingList rest)
  /-- The deepest nesting among the values of a property list. -/
  nestingFields : List (String × JSVal) → Nat
    | [] => 0
    | (_, v) :: rest => max v.nesting (nestingFields rest)

/-- Modelled from the spec: the positions of the GeoJSON document handed to the envelope
routine: of every feature of a feature collection, of the geometry of a feature, or of a
bare geometry. -/
def documentPositions (geojson : JSVal) : Except JSVal (List (JSNum × JSNum)) :=
  match geojson with
  | .obj fields =>
    match getField fields "type", getField fields "features" with
    | .str "FeatureCollection", .arr features _ =>
      (features.mapM (featurePositions geojson.nesting)).map List.flatten
    | .str "Feature", _ => featurePositions geojson.nesting geojson
    | _, _ => geometryPositions geojson.nesting geojson
  | _ => .error (mkError "Error" "Unknown Geometry Type")

/-- Modelled from the spec: the bounding box `[xmin, ymin, xmax, ymax]` of a list of
positions, as the envelope routine reports it: each bound starts at the opposite infinity
and is moved by every position that lies beyond it. -/
def bboxOf (positions : List (JSNum × JSNum)) : List JSNum :=
  [ (positions.map Prod.fst).foldl lowerBound .posInf,
    (positions.map Prod.snd).foldl lowerBound .posInf,
    (positions.map Prod.fst).foldl upperBound .negInf,
    (positions.map Prod.snd).foldl upperBound .negInf ]

/-- Modelled from the spec: the envelope routine (`@turf/envelope`, imported by the module),
"the minimum axis-aligned bounding rectangle enclosing a set of geometries", returned as a
feature whose `bbox` member is `[xmin, ymin, xmax, ymax]`; it raises on malformed
geometry. -/
def envelopeOf (geojson : JSVal) : Except JSVal JSVal := do
  let positions ← documentPositions geojson
  let bbox := (bboxOf positions).map JSVal.num
  let corner (i j : Nat) : JSVal := jsArr [bbox.getD i .undefined, bbox.getD j .undefined]
  return .obj [("type", .str "Feature"), ("bbox", jsArr bbox), ("properties", .obj []),
    ("geometry", .obj [("type", .str "Polygon"),
      ("coordinates", jsArr [jsArr [corner 0 1, corner 2 1, corner 2 3, corner 0 3, corner 0 1]])])]

/-- The collaborators `env` with the envelope routine replaced by `f`. -/
def Env.withEnvelope (env : Env) (f : JSVal → Except JSVal JSVal) : Env :=
  { env with envelope := f }

/-! ## Vocabulary of the statements -/

/-- The extent object `{ xmin, xmax, ymin, ymax, spatialReference }`. -/
def extentObject (xmin ymin xmax ymax spatialReference : JSVal) : JSVal :=
  .obj [("xmin", xmin), ("xmax", xmax), ("ymin", ymin), ("ymax", ymax),
    ("spatialReference", spatialReference)]

/-- The message of the debug event sent when the bounding box fails validation. -/
def invalidGeometryMessage (env : Env) : String :=
  "Could not calculate extent from data: " ++
    env.toDisplayString (.str "Feature does not contain valid geometry")

/-- The collaborators other than the extent ones return normally on this input: the
base-level `mixinOverrides` turns the instance into `base`, whose `drawingInfo` is an
object; the geometry type resolves; and the base-level `_setDirectOverrides` returns and
leaves `extent` alone. -/
structure Cooperative (env : Env) (self : Fields) (geojson options : JSVal) (base : Fields) :
    Prop where
  /-- The base-level build returns `base`. -/
  mixin : env.tableMixinOverrides self geojson options = .ok base
  /-- The descriptor has a `drawingInfo` object. -/
  drawingInfo : ∃ fields, getField base "drawingInfo" = .obj fields
  /-- The geometry type resolver returns. -/
  geometryType : ∃ g, env.getGeometryTypeFromGeojson (spread geojson options) = .ok g
  /-- The base-level direct overrides return and do not touch `extent`. -/
  direct : ∀ s, ∃ s', env.tableSetDirectOverrides s options = .ok s' ∧
    getField s' "extent" = getField s "extent"

/-- The situations in which no extent can be derived from the features: there is no
features list (or a falsy one), the list is empty, the envelope's `bbox` holds an entry that
is not finite, or the envelope routine throws a value other than `null` and `undefined`. -/
def NoExtentProduced (env : Env) (geojson : JSVal) : Prop :=
  (∃ f, getProp geojson "features" = .ok f ∧ toBoolean f = false) ∨
  (∃ props, getProp geojson "features" = .ok (.arr [] props)) ∨
  (∃ features props, getProp geojson "features" = .ok (.arr features props) ∧ features ≠ [] ∧
    ((∃ e items bprops, env.envelope geojson = .ok e ∧
        getProp e "bbox" = .ok (.arr items bprops) ∧ ∃ x ∈ items, isFiniteJS env x = false) ∨
     (∃ e, env.envelope geojson = .error e ∧ e ≠ .undefined ∧ e ≠ .null)))

/-- The default renderer for a geometry type: the polygon renderer for
`esriGeometryPolygon`, the line renderer for `esriGeometryPolyline`, the point renderer for
every other value. -/
def defaultRenderer (env : Env) (geometryType : JSVal) : JSVal :=
  if strictEqStr geometryType "esriGeometryPolygon" then env.polygonRenderer
  else if strictEqStr geometryType "esriGeometryPolyline" then env.lineRenderer
  else env.pointRenderer

/-! ## Sample collaborators and documents

Concrete collaborators and inputs on which the statements below are exercised. -/

/-- A spatial reference value. -/
def wgs84 : JSVal := .obj [("wkid", jsNum 4326)]

/-- Simple collaborators: the base class contributes nothing, the structural defaults hold
an empty `drawingInfo`, the resolver always answers `wgs84`, the geometry type is read from
the merged input, and the envelope routine is `envelopeOf`. -/
def demoEnv : Env where
  normalizeInput := fun geojson options => .ok (.obj [("geojson", geojson), ("options", options)])
  tableInstance := []
  tableMixinOverrides := fun self _ _ => .ok self
  tableSetDirectOverrides := fun self _ => .ok self
  featureLayerDefaults := .obj [("drawingInfo", .obj [])]
  pointRenderer := .obj [("style", .str "point")]
  lineRenderer := .obj [("style", .str "line")]
  polygonRenderer := .obj [("style", .str "polygon")]
  envelope := envelopeOf
  getSpatialReference := fun _ _ => .ok wgs84
  getGeometryTypeFromGeojson := fun merged => getProp merged "geometryType"
  normalizeExtent := fun extent spatialReference =>
    .ok (.obj [("bounds", extent), ("spatialReference", spatialReference)])
  toNumber := fun _ => .nan
  toDisplayString := fun v => match v with
    | .str s => s
    | _ => "undefined"
  mergeDeep := fun _ srcValue => srcValue

/-- A feature holding a point. -/
def pointFeature (x y : JSNum) : JSVal :=
  .obj [("type", .str "Feature"),
    ("geometry", .obj [("type", .str "Point"), ("coordinates", jsArr [.num x, .num y])])]

/-- A feature collection. -/
def featureCollection (features : List JSVal) : JSVal :=
  .obj [("type", .str "FeatureCollection"), ("features", jsArr features)]

/-- The document of the two points `[1, 2]` and `[3, 4]`. -/
def twoPoints : JSVal :=
  featureCollection [pointFeature (.fin 1) (.fin 2), pointFeature (.fin 3) (.fin 4)]

/-- The world extent in `wgs84`. -/
def worldExtent : JSVal := extentObject (jsNum (-180)) (jsNum (-90)) (jsNum 180) (jsNum 90) wgs84

/-- The collaborators `demoEnv` with structural defaults that carry an extent. -/
def worldEnv : Env :=
  { demoEnv with
    featureLayerDefaults := .obj [("drawingInfo", .obj []), ("extent", worldExtent)] }

/-- A feature collection whose only position is `[NaN, NaN]`. -/
def nanPoints : JSVal := featureCollection [pointFeature .nan .nan]

/-- A feature collection holding the position `[NaN, 5]` beside `[1, 2]`. -/
def nanBesideFinite : JSVal :=
  featureCollection [pointFeature .nan (.fin 5), pointFeature (.fin 1) (.fin 2)]

/-- A feature collection whose only position is `[null, null]`. -/
def nullPoint : JSVal :=
  featureCollection [.obj [("type", .str "Feature"),
    ("geometry", .obj [("type", .str "Point"), ("coordinates", jsArr [.null, .null])])]]

/-- The collaborators `demoEnv` with an envelope routine that passes `null` coordinates
through to the bounding box. -/
def nullBoxEnv : Env :=
  demoEnv.withEnvelope fun _ => .ok (.obj [("bbox", jsArr [.null, .null, .null, .null])])

/-- The collaborators `demoEnv` with an envelope routine that throws `e`. -/
def throwingEnv (e : JSVal) : Env :=
  demoEnv.withEnvelope fun _ => .error e

/-- The collaborators `demoEnv` with a spatial-reference resolver that throws `e`. -/
def unresolvedEnv (e : JSVal) : Env :=
  { demoEnv with getSpatialReference := fun _ _ => .error e }

/-- An extent override in array form. -/
def sampleOverride : JSVal := jsArr [jsNum 0, jsNum 0, jsNum 10, jsNum 10]

/-- The empty feature collection. -/
def emptyCollection : JSVal := featureCollection []

/-- Options that switch coordinate quantization on. -/
def quantizedOptions : JSVal :=
  .obj [("capabilities", .obj [("quantization", .bool true)])]

/-- Options that name the polygon geometry type. -/
def polygonOptions : JSVal :=
  .obj [("geometryType", .str "esriGeometryPolygon")]

/-! ## Basic facts -/

@[simp] theorem Run.bind_eq {α β : Type} (m : Run α) (f : α → Run β) :
    (m >>= f) = Run.andThen m f := rfl

@[simp] theorem Run.pure_eq {α : Type} (a : α) : (pure a : Run α) = Run.ret a := rfl

@[simp] theorem Run.call_andThen_ok {α β : Type} (a : α) (f : α → Run β) :
    Run.andThen (Run.call (.ok a)) f = f a := by
  simp [Run.andThen, Run.call]

@[simp] theorem Run.call_andThen_error {α β : Type} (e : JSVal) (f : α → Run β) :
    Run.andThen (Run.call (.error e : Except JSVal α)) f = ⟨.error e, []⟩ := by
  simp [Run.andThen, Run.call]

@[simp] theorem Run.ret_andThen {α β : Type} (a : α) (f : α → Run β) :
    Run.andThen (Run.ret a) f = f a := by
  simp [Run.andThen, Run.ret]

theorem getField_setField_same (fields : Fields) (k : String) (v : JSVal) :
    getField (setField fields k v) k = v := by
  induction fields with
  | nil => simp [setField, getField]
  | cons kv rest ih =>
    obtain ⟨k', v'⟩ := kv
    by_cases h : k' = k
    · simp [setField, getField, h]
    · simp [setField, getField, h, ih]

theorem getField_setField_other (fields : Fields) (k k' : String) (v : JSVal) (h : k ≠ k') :
    getField (setField fields k v) k' = getField fields k' := by
  induction fields with
  | nil => simp [setField, getField, h]
  | cons kv rest ih =>
    obtain ⟨k0, v0⟩ := kv
    by_cases h0 : k0 = k
    · subst h0
      simp [setField, getField, h]
    · by_cases h1 : k0 = k'
      · subst h1
        simp [setField, getField, h0]
      · simp [setField, getField, h0, h1, ih]

/-! ## The bounding box of finite positions -/

theorem foldl_lowerBound_fin (qs : List ℚ) (a0 : ℚ) :
    ∃ a, (qs.map JSNum.fin).foldl lowerBound (.fin a0) = .fin a ∧ a ≤ a0 ∧
      (∀ q ∈ qs, a ≤ q) ∧ (a = a0 ∨ a ∈ qs) := by
  induction qs generalizing a0 with
  | nil => exact ⟨a0, rfl, le_refl _, by simp, Or.inl rfl⟩
  | cons q rest ih =>
    by_cases hq : q < a0
    · obtain ⟨a, h1, h2, h3, h4⟩ := ih q
      refine ⟨a, ?_, le_trans h2 hq.le, ?_, ?_⟩
      · simpa [lowerBound, JSNum.lt, hq] using h1
      · intro x hx
        rcases List.mem_cons.mp hx with rfl | hx
        · exact h2
        · exact h3 x hx
      · rcases h4 with rfl | h4
        · exact Or.inr (List.mem_cons_self _ _)
        · exact Or.inr (List.mem_cons_of_mem _ h4)
    · obtain ⟨a, h1, h2, h3, h4⟩ := ih a0
      refine ⟨a, ?_, h2, ?_, ?_⟩
      · simpa [lowerBound, JSNum.lt, hq] using h1
      · intro x hx
        rcases List.mem_cons.mp hx with rfl | hx
        · exact le_trans h2 (not_lt.mp hq)
        · exact h3 x hx
      · rcases h4 with rfl | h4
        · exact Or.inl rfl
        · exact Or.inr (List.mem_cons_of_mem _ h4)

theorem foldl_upperBound_fin (qs : List ℚ) (a0 : ℚ) :
    ∃ a, (qs.map JSNum.fin).foldl upperBound (.fin a0) = .fin a ∧ a0 ≤ a ∧
      (∀ q ∈ qs, q ≤ a) ∧ (a = a0 ∨ a ∈ qs) := by
  induction qs generalizing a0 with
  | nil => exact ⟨a0, rfl, le_refl _, by simp, Or.inl rfl⟩
  | cons q rest ih =>
    by_cases hq : a0 < q
    · obtain ⟨a, h1, h2, h3, h4⟩ := ih q
      refine ⟨a, ?_, le_trans hq.le h2, ?_, ?_⟩
      · simpa [upperBound, JSNum.lt, hq] using h1
      · intro x hx
        rcases List.mem_cons.mp hx with rfl | hx
        · exact h2
        · exact h3 x hx
      · rcases h4 with rfl | h4
        · exact Or.inr (List.mem_cons_self _ _)
        · exact Or.inr (List.mem_cons_of_mem _ h4)
    · obtain ⟨a, h1, h2, h3, h4⟩ := ih a0
      refine ⟨a, ?_, h2, ?_, ?_⟩
      · simpa [upperBound, JSNum.lt, hq] using h1
      · intro x hx
        rcases List.mem_cons.mp hx with rfl | hx
        · exact le_trans (not_lt.mp hq) h2
        · exact h3 x hx
      · rcases h4 with rfl | h4
        · exact Or.inl rfl
        · exact Or.inr (List.mem_cons_of_mem _ h4)

theorem foldl_lowerBound_posInf (qs : List ℚ) (hne : qs ≠ []) :
    ∃ a, (qs.map JSNum.fin).foldl lowerBound .posInf = .fin a ∧
      (∀ q ∈ qs, a ≤ q) ∧ a ∈ qs := by
  cases qs with
  | nil => exact absurd rfl hne
  | cons q rest =>
    obtain ⟨a, h1, h2, h3, h4⟩ := foldl_lowerBound_fin rest q
    refine ⟨a, ?_, ?_, ?_⟩
    · simpa [lowerBound, JSNum.lt] using h1
    · intro x hx
      rcases List.mem_cons.mp hx with rfl | hx
      · exact h2
      · exact h3 x hx
    · rcases h4 with rfl | h4
      · exact List.mem_cons_self _ _
      · exact List.mem_cons_of_mem _ h4

theorem foldl_upperBound_negInf (qs : List ℚ) (hne : qs ≠ []) :
    ∃ a, (qs.map JSNum.fin).foldl upperBound .negInf = .fin a ∧
      (∀ q ∈ qs, q ≤ a) ∧ a ∈ qs := by
  cases qs with
  | nil => exact absurd rfl hne
  | cons q rest =>
    obtain ⟨a, h1, h2, h3, h4⟩ := foldl_upperBound_fin rest q
    refine ⟨a, ?_, ?_, ?_⟩
    · simpa [upperBound, JSNum.lt] using h1
    · intro x hx
      rcases List.mem_cons.mp hx with rfl | hx
      · exact h2
      · exact h3 x hx
    · rcases h4 with rfl | h4
      · exact List.mem_cons_self _ _
      · exact List.mem_cons_of_mem _ h4

/-! ## The extent computed from the features -/

theorem checkCoordinates_ok (env : Env) (items : List JSVal)
    (h : ∀ x ∈ items, isFiniteJS env x = true) : checkCoordinates env items = .ok () := by
  induction items with
  | nil => rfl
  | cons x rest ih =>
    have hx : isFiniteJS env x = true := h x (List.mem_cons_self _ _)
    have hrest : ∀ y ∈ rest, isFiniteJS env y = true :=
      fun y hy => h y (List.mem_cons_of_mem _ hy)
    simp [checkCoordinates, hx, ih hrest]

theorem checkCoordinates_error (env : Env) (items : List JSVal)
    (h : ∃ x ∈ items, isFiniteJS env x = false) :
    checkCoordinates env items =
      .error (mkError "Error" "Feature does not contain valid geometry") := by
  induction items with
  | nil =>
    obtain ⟨x, hx, _⟩ := h
    exact absurd hx (List.not_mem_nil x)
  | cons y rest ih =>
    by_cases hy : isFiniteJS env y = true
    · have hrest : ∃ x ∈ rest, isFiniteJS env x = false := by
        obtain ⟨x, hx, hfx⟩ := h
        rcases List.mem_cons.mp hx with rfl | hx
        · rw [hy] at hfx
          exact absurd hfx (by decide)
        · exact ⟨x, hx, hfx⟩
      simp [checkCoordinates, hy, ih hrest]
    · simp [checkCoordinates, hy]

theorem checkCoordinates_finite (env : Env) (items : List JSVal)
    (h : checkCoordinates env items = .ok ()) : ∀ x ∈ items, isFiniteJS env x = true := by
  induction items with
  | nil => intro x hx; exact absurd hx (List.not_mem_nil x)
  | cons y rest ih =>
    by_cases hy : isFiniteJS env y = true
    · simp only [checkCoordinates, hy] at h
      intro x hx
      rcases List.mem_cons.mp hx with rfl | hx
      · exact hy
      · exact ih (by simpa using h) x hx
    · simp [checkCoordinates, hy] at h

/-- The `try` block succeeds when the envelope has an array `bbox` of finite entries: the
extent takes the first four entries in the order `xmin, ymin, xmax, ymax`. -/
theorem extentFromEnvelope_ok (env : Env) (geojson sr e : JSVal) (items : List JSVal)
    (props : Fields) (henv : env.envelope geojson = .ok e)
    (hbbox : getProp e "bbox" = .ok (.arr items props))
    (hfin : ∀ x ∈ items, isFiniteJS env x = true) :
    extentFromEnvelope env geojson sr =
      .ok (extentObject (items.getD 0 .undefined) (items.getD 1 .undefined)
        (items.getD 2 .undefined) (items.getD 3 .undefined) sr) := by
  simp only [extentFromEnvelope, henv, bind, Except.bind, hbbox, forEachCoordinate,
    checkCoordinates_ok env items hfin, arrayPatternGet, extentObject, pure, Except.pure]

/-- The `try` block throws the validation error when an entry of `bbox` is not finite. -/
theorem extentFromEnvelope_invalid (env : Env) (geojson sr e : JSVal) (items : List JSVal)
    (props : Fields) (henv : env.envelope geojson = .ok e)
    (hbbox : getProp e "bbox" = .ok (.arr items props))
    (hbad : ∃ x ∈ items, isFiniteJS env x = false) :
    extentFromEnvelope env geojson sr =
      .error (mkError "Error" "Feature does not contain valid geometry") := by
  simp only [extentFromEnvelope, henv, bind, Except.bind, hbbox, forEachCoordinate,
    checkCoordinates_error env items hbad]

/-- The `try` block throws what the envelope routine throws. -/
theorem extentFromEnvelope_throws (env : Env) (geojson sr e : JSVal)
    (henv : env.envelope geojson = .error e) :
    extentFromEnvelope env geojson sr = .error e := by
  simp only [extentFromEnvelope, henv, bind, Except.bind]

theorem getProp_arr_length (items : List JSVal) (props : Fields) :
    getProp (.arr items props) "length" = .ok (jsNum items.length) := by
  simp [getProp]

/-- With a non-empty features array the function runs the `try` block; when that block
returns, so does the function, silently. -/
theorem calculateExtent_of_ok (env : Env) (geojson sr v : JSVal) (features : List JSVal)
    (props : Fields) (hfeat : getProp geojson "features" = .ok (.arr features props))
    (hne : features ≠ []) (h : extentFromEnvelope env geojson sr = .ok v) :
    calculateExtentFromFeatures env geojson sr = ⟨.ok v, []⟩ := by
  have hlen : ¬ ((features.length : ℚ) = 0) := by
    simpa using hne
  simp [calculateExtentFromFeatures, hfeat, toBoolean, getProp_arr_length, jsNum, strictEqNum,
    hlen, h, Run.tryCatch, Run.call, Run.andThen, Run.ret]

/-- With a non-empty features array, a throw inside the `try` block of a value that has a
`message` to read is swallowed: nothing is returned and one debug event is sent. -/
theorem calculateExtent_of_error (env : Env) (geojson sr e m : JSVal) (features : List JSVal)
    (props : Fields) (hfeat : getProp geojson "features" = .ok (.arr features props))
    (hne : features ≠ []) (h : extentFromEnvelope env geojson sr = .error e)
    (hm : getProp e "message" = .ok m) :
    calculateExtentFromFeatures env geojson sr =
      ⟨.ok .undefined, ["Could not calculate extent from data: " ++ env.toDisplayString m]⟩ := by
  have hlen : ¬ ((features.length : ℚ) = 0) := by
    simpa using hne
  simp [calculateExtentFromFeatures, hfeat, toBoolean, getProp_arr_length, jsNum, strictEqNum,
    hlen, h, Run.tryCatch, Run.call, hm, Run.andThen, Run.debug, Run.ret]

/-- With a non-empty features array, a throw inside the `try` block of a value whose
`message` cannot be read makes the handler itself throw. -/
theorem calculateExtent_of_unreadable (env : Env) (geojson sr e e' : JSVal)
    (features : List JSVal) (props : Fields)
    (hfeat : getProp geojson "features" = .ok (.arr features props))
    (hne : features ≠ []) (h : extentFromEnvelope env geojson sr = .error e)
    (hm : getProp e "message" = .error e') :
    calculateExtentFromFeatures env geojson sr = ⟨.error e', []⟩ := by
  have hlen : ¬ ((features.length : ℚ) = 0) := by
    simpa using hne
  simp [calculateExtentFromFeatures, hfeat, toBoolean, getProp_arr_length, jsNum, strictEqNum,
    hlen, h, Run.tryCatch, Run.call, hm, Run.andThen, Run.ret]

/-- Without an extent override `getLayerExtent` is `calculateExtentFromFeatures` at the
resolved spatial reference. -/
theorem getLayerExtent_of_no_override (env : Env) (geojson options sr extent : JSVal)
    (hsr : env.getSpatialReference geojson options = .ok sr)
    (hext : getProp options "extent" = .ok extent) (hfalsy : toBoolean extent = false) :
    getLayerExtent env geojson options = calculateExtentFromFeatures env geojson sr := by
  simp [getLayerExtent, hsr, hext, hfalsy]

/-- The bounding box of finitely many finite positions, at least one, consists of the
least and greatest coordinates. -/
theorem bboxOf_fin (ps : List (ℚ × ℚ)) (hps : ps ≠ []) :
    ∃ xmin ymin xmax ymax : ℚ,
      bboxOf (ps.map fun p => (JSNum.fin p.1, JSNum.fin p.2)) =
        [.fin xmin, .fin ymin, .fin xmax, .fin ymax] ∧
      (∀ p ∈ ps, xmin ≤ p.1) ∧ (∃ p ∈ ps, p.1 = xmin) ∧
      (∀ p ∈ ps, ymin ≤ p.2) ∧ (∃ p ∈ ps, p.2 = ymin) ∧
      (∀ p ∈ ps, p.1 ≤ xmax) ∧ (∃ p ∈ ps, p.1 = xmax) ∧
      (∀ p ∈ ps, p.2 ≤ ymax) ∧ (∃ p ∈ ps, p.2 = ymax) := by
  have hx : ps.map Prod.fst ≠ [] := by simpa using hps
  have hy : ps.map Prod.snd ≠ [] := by simpa using hps
  obtain ⟨a, ha, ha1, ha2⟩ := foldl_lowerBound_posInf _ hx
  obtain ⟨b, hb, hb1, hb2⟩ := foldl_lowerBound_posInf _ hy
  obtain ⟨c, hc, hc1, hc2⟩ := foldl_upperBound_negInf _ hx
  obtain ⟨d, hd, hd1, hd2⟩ := foldl_upperBound_negInf _ hy
  have e1 : (ps.map fun p => (JSNum.fin p.1, JSNum.fin p.2)).map Prod.fst
      = (ps.map Prod.fst).map JSNum.fin := by
    simp [List.map_map, Function.comp_def]
  have e2 : (ps.map fun p => (JSNum.fin p.1, JSNum.fin p.2)).map Prod.snd
      = (ps.map Prod.snd).map JSNum.fin := by
    simp [List.map_map, Function.comp_def]
  refine ⟨a, b, c, d, ?_, ?_, ?_, ?_, ?_, ?_, ?_, ?_, ?_⟩
  · simp only [bboxOf, e1, e2, ha, hb, hc, hd]
  · intro p hp
    exact ha1 p.1 (List.mem_map_of_mem _ hp)
  · obtain ⟨p, hp, rfl⟩ := List.mem_map.mp ha2
    exact ⟨p, hp, rfl⟩
  · intro p hp
    exact hb1 p.2 (List.mem_map_of_mem _ hp)
  · obtain ⟨p, hp, rfl⟩ := List.mem_map.mp hb2
    exact ⟨p, hp, rfl⟩
  · intro p hp
    exact hc1 p.1 (List.mem_map_of_mem _ hp)
  · obtain ⟨p, hp, rfl⟩ := List.mem_map.mp hc2
    exact ⟨p, hp, rfl⟩
  · intro p hp
    exact hd1 p.2 (List.mem_map_of_mem _ hp)
  · obtain ⟨p, hp, rfl⟩ := List.mem_map.mp hd2
    exact ⟨p, hp, rfl⟩

theorem featurePositions_point (fuel : Nat) (x y : JSNum) :
    featurePositions fuel (pointFeature x y) = .ok [(x, y)] := by
  cases fuel <;> rfl

/-- A collection of point features with finite coordinates has exactly those positions. -/
theorem documentPositions_points (ps : List (ℚ × ℚ)) :
    documentPositions (featureCollection (ps.map fun p => pointFeature (.fin p.1) (.fin p.2))) =
      .ok (ps.map fun p => (JSNum.fin p.1, JSNum.fin p.2)) := by
  have key : ∀ (fuel : Nat) (l : List (ℚ × ℚ)),
      (l.map fun p => pointFeature (.fin p.1) (.fin p.2)).mapM (featurePositions fuel) =
        .ok (l.map fun p => [(JSNum.fin p.1, JSNum.fin p.2)]) := by
    intro fuel l
    induction l with
    | nil => rfl
    | cons p rest ih =>
      simp only [List.map_cons, List.mapM_cons, featurePositions_point, ih]
      rfl
  have hflat : ∀ l : List (ℚ × ℚ),
      (l.map fun p => [(JSNum.fin p.1, JSNum.fin p.2)]).flatten =
        l.map fun p => (JSNum.fin p.1, JSNum.fin p.2) := by
    intro l
    induction l with
    | nil => rfl
    | cons p rest ih => simp [ih]
  have hdoc : documentPositions
      (featureCollection (ps.map fun p => pointFeature (.fin p.1) (.fin p.2))) =
      ((ps.map fun p => pointFeature (.fin p.1) (.fin p.2)).mapM (featurePositions
        (featureCollection (ps.map fun p => pointFeature (.fin p.1) (.fin p.2))).nesting)).map
        List.flatten := rfl
  rw [hdoc, key]
  simp only [Except.map, hflat]

/-- C1. For a document with at least one feature whose positions are all finite (and there
is at least one), with no extent override and the envelope routine being the minimum
bounding rectangle, `getLayerExtent` and `calculateExtentFromFeatures` return, silently, the
extent whose `xmin`, `ymin`, `xmax`, `ymax` are the least and greatest coordinates over all
positions, with `xmin ≤ xmax` and `ymin ≤ ymax`, carrying the resolved spatial reference. -/
theorem extent_is_coordinatewise_min_max (env : Env) (geojson options sr : JSVal)
    (features : List JSVal) (props : Fields) (ps : List (ℚ × ℚ))
    (hfeat : getProp geojson "features" = .ok (.arr features props)) (hne : features ≠ [])
    (hpos : documentPositions geojson = .ok (ps.map fun p => (JSNum.fin p.1, JSNum.fin p.2)))
    (hps : ps ≠ [])
    (hsr : (env.withEnvelope envelopeOf).getSpatialReference geojson options = .ok sr)
    (hext : getProp options "extent" = .ok .undefined) :
    ∃ xmin ymin xmax ymax : ℚ,
      getLayerExtent (env.withEnvelope envelopeOf) geojson options =
        ⟨.ok (extentObject (jsNum xmin) (jsNum ymin) (jsNum xmax) (jsNum ymax) sr), []⟩ ∧
      calculateExtentFromFeatures (env.withEnvelope envelopeOf) geojson sr =
        ⟨.ok (extentObject (jsNum xmin) (jsNum ymin) (jsNum xmax) (jsNum ymax) sr), []⟩ ∧
      (∀ p ∈ ps, xmin ≤ p.1) ∧ (∃ p ∈ ps, p.1 = xmin) ∧
      (∀ p ∈ ps, ymin ≤ p.2) ∧ (∃ p ∈ ps, p.2 = ymin) ∧
      (∀ p ∈ ps, p.1 ≤ xmax) ∧ (∃ p ∈ ps, p.1 = xmax) ∧
      (∀ p ∈ ps, p.2 ≤ ymax) ∧ (∃ p ∈ ps, p.2 = ymax) ∧
      xmin ≤ xmax ∧ ymin ≤ ymax := by
  obtain ⟨a, b, c, d, hbox, h1, h2, h3, h4, h5, h6, h7, h8⟩ := bboxOf_fin ps hps
  have henv : (env.withEnvelope envelopeOf).envelope geojson =
      .ok (.obj [("type", .str "Feature"),
        ("bbox", jsArr [jsNum a, jsNum b, jsNum c, jsNum d]), ("properties", .obj []),
        ("geometry", .obj [("type", .str "Polygon"),
          ("coordinates", jsArr [jsArr [jsArr [jsNum a, jsNum b], jsArr [jsNum c, jsNum b],
            jsArr [jsNum c, jsNum d], jsArr [jsNum a, jsNum d], jsArr [jsNum a, jsNum b]]])])]) := by
    simp [Env.withEnvelope, envelopeOf, hpos, hbox, bind, Except.bind, pure, Except.pure, jsNum]
  have hcalc : calculateExtentFromFeatures (env.withEnvelope envelopeOf) geojson sr =
      ⟨.ok (extentObject (jsNum a) (jsNum b) (jsNum c) (jsNum d) sr), []⟩ := by
    apply calculateExtent_of_ok _ _ _ _ features props hfeat hne
    rw [extentFromEnvelope_ok _ geojson sr _ [jsNum a, jsNum b, jsNum c, jsNum d] [] henv
      (by simp [getProp, getField, jsArr])
      (by intro x hx; simp at hx; rcases hx with rfl | rfl | rfl | rfl <;> rfl)]
    rfl
  refine ⟨a, b, c, d, ?_, hcalc, h1, h2, h3, h4, h5, h6, h7, h8, ?_, ?_⟩
  · rw [getLayerExtent_of_no_override _ geojson options sr .undefined hsr hext rfl, hcalc]
  · obtain ⟨p, hp, rfl⟩ := h2
    exact h5 p hp
  · obtain ⟨p, hp, rfl⟩ := h4
    exact h7 p hp

/-- C1, on the two points `[1, 2]` and `[3, 4]`: the extent is
`{ xmin: 1, ymin: 2, xmax: 3, ymax: 4 }` with the resolved spatial reference. -/
theorem extent_is_coordinatewise_min_max_witness :
    getLayerExtent (demoEnv.withEnvelope envelopeOf) twoPoints (.obj []) =
      ⟨.ok (extentObject (jsNum 1) (jsNum 2) (jsNum 3) (jsNum 4) wgs84), []⟩ ∧
    calculateExtentFromFeatures (demoEnv.withEnvelope envelopeOf) twoPoints wgs84 =
      ⟨.ok (extentObject (jsNum 1) (jsNum 2) (jsNum 3) (jsNum 4) wgs84), []⟩ := by
  obtain ⟨xmin, ymin, xmax, ymax, hget, hcalc, hx1, hx2, hy1, hy2, hx3, hx4, hy3, hy4, _, _⟩ :=
    extent_is_coordinatewise_min_max demoEnv twoPoints (.obj []) wgs84
      [pointFeature (.fin 1) (.fin 2), pointFeature (.fin 3) (.fin 4)] [] [(1, 2), (3, 4)]
      rfl (by simp) rfl (by simp) rfl rfl
  have e1 : xmin = 1 := by
    obtain ⟨p, hp, rfl⟩ := hx2
    have h := hx1 (1, 2) (by simp)
    simp at hp
    rcases hp with rfl | rfl
    · rfl
    · norm_num at h
  have e2 : ymin = 2 := by
    obtain ⟨p, hp, rfl⟩ := hy2
    have h := hy1 (1, 2) (by simp)
    simp at hp
    rcases hp with rfl | rfl
    · rfl
    · norm_num at h
  have e3 : xmax = 3 := by
    obtain ⟨p, hp, rfl⟩ := hx4
    have h := hx3 (3, 4) (by simp)
    simp at hp
    rcases hp with rfl | rfl
    · norm_num at h
    · rfl
  have e4 : ymax = 4 := by
    obtain ⟨p, hp, rfl⟩ := hy4
    have h := hy3 (3, 4) (by simp)
    simp at hp
    rcases hp with rfl | rfl
    · norm_num at h
    · rfl
  subst e1 e2 e3 e4
  exact ⟨hget, hcalc⟩

/-! ## The descriptor around the extent step -/

theorem setExtent_of_ok (env : Env) (self : Fields) (geojson options v : JSVal)
    (log : List String) (h : getLayerExtent env geojson options = ⟨.ok v, log⟩) :
    _setExtent env self geojson options =
      ⟨.ok (if toBoolean v then setField self "extent" v else self), log⟩ := by
  by_cases hv : toBoolean v = true <;>
    simp [_setExtent, h, hv, Run.andThen, Run.ret]

theorem setExtent_of_error (env : Env) (self : Fields) (geojson options e : JSVal)
    (log : List String) (h : getLayerExtent env geojson options = ⟨.error e, log⟩) :
    _setExtent env self geojson options = ⟨.error e, log⟩ := by
  simp [_setExtent, h, Run.andThen]

theorem getProp_obj (fields : Fields) (k : String) :
    getProp (.obj fields) k = .ok (getField fields k) := rfl

theorem getProp_defined (v : JSVal) (k : String) (h1 : v ≠ .undefined) (h2 : v ≠ .null) :
    ∃ x, getProp v k = .ok x := by
  cases v with
  | undefined => exact absurd rfl h1
  | null => exact absurd rfl h2
  | bool b => exact ⟨_, rfl⟩
  | num n => exact ⟨_, rfl⟩
  | str s =>
    by_cases hk : k = "length"
    · exact ⟨jsNum s.length, by simp [getProp, hk]⟩
    · exact ⟨.undefined, by simp [getProp, hk]⟩
  | arr items props =>
    by_cases hk : k = "length"
    · exact ⟨jsNum items.length, by simp [getProp, hk]⟩
    · by_cases hi : hasField (indexEntries items) k = true
      · exact ⟨getField (indexEntries items) k, by simp [getProp, hk, hi]⟩
      · exact ⟨getField props k, by simp [getProp, hk, hi]⟩
  | obj fields => exact ⟨_, rfl⟩

theorem orEmptyObject_ne_undefined (v : JSVal) : orEmptyObject v ≠ .undefined := by
  cases v <;> simp [orEmptyObject]

theorem orEmptyObject_ne_null (v : JSVal) (h : v ≠ .null) : orEmptyObject v ≠ .null := by
  cases v <;> simp_all [orEmptyObject]

theorem setDrawingInfo_obj (self : Fields) (key : String) (value : JSVal) (fields : Fields)
    (h : getField self "drawingInfo" = .obj fields) :
    setDrawingInfo self key value =
      .ok (setField self "drawingInfo" (.obj (setField fields key value))) := by
  simp [setDrawingInfo, h]

/-- A descriptor with a `drawingInfo` object always gets a renderer, and nothing but
`drawingInfo` changes. -/
theorem setRenderer_obj (env : Env) (self : Fields) (renderer : JSVal) (fields : Fields)
    (h : getField self "drawingInfo" = .obj fields) :
    ∃ r, _setRenderer env self renderer =
      .ok (setField self "drawingInfo" (.obj (setField fields "renderer" r))) := by
  unfold _setRenderer
  split
  · exact ⟨_, setDrawingInfo_obj self _ _ fields h⟩
  · split
    · exact ⟨_, setDrawingInfo_obj self _ _ fields h⟩
    · split
      · exact ⟨_, setDrawingInfo_obj self _ _ fields h⟩
      · exact ⟨_, setDrawingInfo_obj self _ _ fields h⟩

theorem setLabelingInfo_obj (self : Fields) (labelingInfo : JSVal) (fields : Fields)
    (h : getField self "drawingInfo" = .obj fields) :
    ∃ self', _setLabelingInfo self labelingInfo = .ok self' ∧
      ∀ k, k ≠ "drawingInfo" → getField self' k = getField self k := by
  unfold _setLabelingInfo
  split
  · refine ⟨_, setDrawingInfo_obj self _ _ fields h, ?_⟩
    intro k hk
    exact getField_setField_other _ _ _ _ (Ne.symm hk)
  · exact ⟨self, rfl, fun _ _ => rfl⟩

theorem getField_mergeEntry_other (env : Env) (object : Fields) (key k : String)
    (srcValue : JSVal) (h : key ≠ k) :
    getField (mergeEntry env object key srcValue) k = getField object k := by
  unfold mergeEntry
  split
  · exact getField_setField_other _ _ _ _ h
  · split
    · split
      · rfl
      · exact getField_setField_other _ _ _ _ h
    · exact getField_setField_other _ _ _ _ h

/-- The merge of `{ minScale, maxScale }` changes no other property. -/
theorem getField_merge_scales_other (env : Env) (object : Fields) (minScale maxScale : JSVal)
    (k : String) (h1 : k ≠ "minScale") (h2 : k ≠ "maxScale") :
    getField (merge env object [("minScale", minScale), ("maxScale", maxScale)]) k =
      getField object k := by
  simp only [merge, List.foldl]
  rw [getField_mergeEntry_other _ _ _ _ _ (Ne.symm h2),
    getField_mergeEntry_other _ _ _ _ _ (Ne.symm h1)]

/-- On input that normalizes to `geojson` and `options`, `create` is `mixinOverrides` on a
freshly constructed instance. -/
theorem create_of_normalized (env : Env) (input inputOptions geojson options : JSVal)
    (h : env.normalizeInput input inputOptions =
      .ok (.obj [("geojson", geojson), ("options", options)])) :
    create env input inputOptions = mixinOverrides env (construct env) geojson options := by
  have hg1 : getField [("geojson", geojson), ("options", options)] "geojson" = geojson := by
    simp [getField]
  have hg2 : getField [("geojson", geojson), ("options", options)] "options" = options := by
    simp [getField]
  simp only [create, h, Run.bind_eq, Run.call_andThen_ok, getProp_obj, hg1, hg2]

/-- When the collaborators return normally and the extent step yields `v`, the method
returns a descriptor, emits what the extent step emitted, and the descriptor's `extent` is
`v` if `v` is truthy and otherwise what the base-level build left there. -/
theorem mixinOverrides_of_extent (env : Env) (self : Fields) (geojson optionsArg : JSVal)
    (fields base : Fields) (v : JSVal) (log : List String)
    (hopt : orEmptyObject optionsArg = .obj fields)
    (hcap : getField fields "capabilities" ≠ .null)
    (hco : Cooperative env self geojson (.obj fields) base)
    (hext : getLayerExtent env geojson (extentOptions (getField fields "inputCrs")
      (getField fields "sourceSR") (getField fields "extent")) = ⟨.ok v, log⟩) :
    ∃ d, mixinOverrides env self geojson optionsArg = ⟨.ok d, log⟩ ∧
      getField d "extent" = if toBoolean v then v else getField base "extent" := by
  obtain ⟨hmix, ⟨dinfo, hdinfo⟩, ⟨g, hg⟩, hdirect⟩ := hco
  obtain ⟨q, hq⟩ := getProp_defined (orEmptyObject (getField fields "capabilities"))
    "quantization" (orEmptyObject_ne_undefined _) (orEmptyObject_ne_null _ hcap)
  -- the instance after the extent step
  let s3 := setField (setField base "geometryType" g) "supportsCoordinatesQuantization"
    (.bool (toBoolean q))
  let s4 := if toBoolean v then setField s3 "extent" v else s3
  have h3d : getField s3 "drawingInfo" = .obj dinfo := by
    simp only [s3]
    rw [getField_setField_other _ _ _ _ (by decide), getField_setField_other _ _ _ _ (by decide)]
    exact hdinfo
  have h3e : getField s3 "extent" = getField base "extent" := by
    simp only [s3]
    rw [getField_setField_other _ _ _ _ (by decide), getField_setField_other _ _ _ _ (by decide)]
  have hs4d : getField s4 "drawingInfo" = .obj dinfo := by
    cases hv : toBoolean v
    · simp only [s4, hv, Bool.false_eq_true, if_false]
      exact h3d
    · simp only [s4, hv, if_true]
      rw [getField_setField_other _ _ _ _ (by decide)]
      exact h3d
  have hs4e : getField s4 "extent" = if toBoolean v then v else getField base "extent" := by
    cases hv : toBoolean v
    · simp only [s4, hv, Bool.false_eq_true, if_false]
      exact h3e
    · simp only [s4, hv, if_true]
      exact getField_setField_same _ _ _
  obtain ⟨r, hr⟩ := setRenderer_obj env s4 (getField fields "renderer") dinfo hs4d
  obtain ⟨s6, hs6, hs6frame⟩ := setLabelingInfo_obj
    (setField s4 "drawingInfo" (.obj (setField dinfo "renderer" r)))
    (getField fields "labelingInfo") (setField dinfo "renderer" r)
    (getField_setField_same _ _ _)
  obtain ⟨s7, hs7, hs7e⟩ := hdirect s6
  refine ⟨merge env s7 [("minScale", getField fields "minScale"),
    ("maxScale", getField fields "maxScale")], ?_, ?_⟩
  · have hse := setExtent_of_ok env s3 geojson _ v log hext
    have hdo : _setDirectOverrides env s6 (.obj fields) =
        .ok (merge env s7 [("minScale", getField fields "minScale"),
          ("maxScale", getField fields "maxScale")]) := by
      simp [_setDirectOverrides, hs7, getProp_obj, bind, Except.bind, pure, Except.pure]
    simp only [mixinOverrides, hopt, hmix, Run.bind_eq, Run.call_andThen_ok, getProp_obj,
      Except.map, hg, hq, Run.pure_eq]
    simp only [s3] at hse
    rw [hse]
    simp only [s4, s3] at hr
    simp [Run.andThen, hr, hs6, hdo, Run.call, Run.ret]
  · rw [getField_merge_scales_other _ _ _ _ _ (by decide) (by decide), hs7e,
      hs6frame "extent" (by decide), getField_setField_other _ _ _ _ (by decide), hs4e]

/-! ## The extent step on documents without a usable bounding box -/

theorem calculateExtent_of_falsy (env : Env) (geojson sr f : JSVal)
    (hfeat : getProp geojson "features" = .ok f) (hf : toBoolean f = false) :
    calculateExtentFromFeatures env geojson sr = ⟨.ok .undefined, []⟩ := by
  simp [calculateExtentFromFeatures, hfeat, hf, Run.ret]

theorem calculateExtent_of_empty (env : Env) (geojson sr : JSVal) (props : Fields)
    (hfeat : getProp geojson "features" = .ok (.arr [] props)) :
    calculateExtentFromFeatures env geojson sr = ⟨.ok .undefined, []⟩ := by
  simp [calculateExtentFromFeatures, hfeat, toBoolean, getProp_arr_length, jsNum, strictEqNum,
    Run.ret, Run.andThen, Run.call]

theorem calculateExtent_of_invalid (env : Env) (geojson sr e : JSVal)
    (features items : List JSVal) (props bprops : Fields)
    (hfeat : getProp geojson "features" = .ok (.arr features props)) (hne : features ≠ [])
    (henv : env.envelope geojson = .ok e) (hbbox : getProp e "bbox" = .ok (.arr items bprops))
    (hbad : ∃ x ∈ items, isFiniteJS env x = false) :
    calculateExtentFromFeatures env geojson sr =
      ⟨.ok .undefined, [invalidGeometryMessage env]⟩ :=
  calculateExtent_of_error env geojson sr _ _ features props hfeat hne
    (extentFromEnvelope_invalid env geojson sr e items bprops henv hbbox hbad) rfl

/-- For a document with at least one feature whose envelope has a `bbox` with an entry that
is not finite, with no extent override and the collaborators returning normally: the extent
computation returns nothing and sends exactly one debug event, and `mixinOverrides` still
returns a descriptor, having sent that one event; the descriptor's `extent` is what the
base-level build left there. -/
theorem mixinOverrides_of_invalid_bbox (env : Env) (self : Fields)
    (geojson optionsArg sr e : JSVal) (fields base : Fields) (features items : List JSVal)
    (props bprops : Fields)
    (hopt : orEmptyObject optionsArg = .obj fields)
    (hnoext : getField fields "extent" = .undefined)
    (hcap : getField fields "capabilities" ≠ .null)
    (hco : Cooperative env self geojson (.obj fields) base)
    (hsr : env.getSpatialReference geojson (extentOptions (getField fields "inputCrs")
      (getField fields "sourceSR") (getField fields "extent")) = .ok sr)
    (hfeat : getProp geojson "features" = .ok (.arr features props)) (hne : features ≠ [])
    (henv : env.envelope geojson = .ok e) (hbbox : getProp e "bbox" = .ok (.arr items bprops))
    (hbad : ∃ x ∈ items, isFiniteJS env x = false) :
    calculateExtentFromFeatures env geojson sr =
      ⟨.ok .undefined, [invalidGeometryMessage env]⟩ ∧
    ∃ d, mixinOverrides env self geojson optionsArg = ⟨.ok d, [invalidGeometryMessage env]⟩ ∧
      getField d "extent" = getField base "extent" ∧
      (self = construct env → ∀ input inputOptions,
        env.normalizeInput input inputOptions =
          .ok (.obj [("geojson", geojson), ("options", optionsArg)]) →
        create env input inputOptions = ⟨.ok d, [invalidGeometryMessage env]⟩) := by
  have hcalc := calculateExtent_of_invalid env geojson sr e features items props bprops
    hfeat hne henv hbbox hbad
  refine ⟨hcalc, ?_⟩
  have hget : getLayerExtent env geojson (extentOptions (getField fields "inputCrs")
      (getField fields "sourceSR") (getField fields "extent")) =
      ⟨.ok .undefined, [invalidGeometryMessage env]⟩ := by
    rw [getLayerExtent_of_no_override env geojson _ sr .undefined hsr
      (by simp [extentOptions, getProp, getField, hnoext]) rfl, hcalc]
  obtain ⟨d, hd, hde⟩ := mixinOverrides_of_extent env self geojson optionsArg fields base
    .undefined _ hopt hcap hco hget
  refine ⟨d, hd, by simpa [toBoolean] using hde, ?_⟩
  intro hself input inputOptions hnorm
  rw [create_of_normalized env input inputOptions geojson optionsArg hnorm, ← hself, hd]

/-! ## Coordinates that are not finite, under the envelope -/

theorem JSNum.lt_posInf_left (c : JSNum) : JSNum.lt .posInf c = false := by
  cases c <;> rfl

theorem JSNum.lt_negInf_right (c : JSNum) : JSNum.lt c .negInf = false := by
  cases c <;> rfl

theorem JSNum.lt_nan_left (c : JSNum) : JSNum.lt .nan c = false := by
  cases c <;> rfl

theorem JSNum.lt_nan_right (c : JSNum) : JSNum.lt c .nan = false := by
  cases c <;> rfl

theorem upperBound_ne_nan (r c : JSNum) (h : r ≠ .nan) : upperBound r c ≠ .nan := by
  unfold upperBound
  split
  · rename_i hlt
    intro hc
    rw [hc, JSNum.lt_nan_right] at hlt
    exact absurd hlt (by decide)
  · exact h

theorem lowerBound_ne_nan (r c : JSNum) (h : r ≠ .nan) : lowerBound r c ≠ .nan := by
  unfold lowerBound
  split
  · rename_i hlt
    intro hc
    rw [hc, JSNum.lt_nan_left] at hlt
    exact absurd hlt (by decide)
  · exact h

theorem upperBound_posInf (r : JSNum) (h : r ≠ .nan) : upperBound r .posInf = .posInf := by
  cases r with
  | nan => exact absurd rfl h
  | posInf => rfl
  | negInf => rfl
  | fin q => rfl

theorem lowerBound_negInf (r : JSNum) (h : r ≠ .nan) : lowerBound r .negInf = .negInf := by
  cases r with
  | nan => exact absurd rfl h
  | posInf => rfl
  | negInf => rfl
  | fin q => rfl

theorem foldl_upperBound_posInf (xs : List JSNum) :
    xs.foldl upperBound .posInf = .posInf := by
  induction xs with
  | nil => rfl
  | cons x rest ih =>
    simp only [List.foldl_cons, upperBound, JSNum.lt_posInf_left, Bool.false_eq_true, if_false]
    exact ih

theorem foldl_lowerBound_negInf (xs : List JSNum) :
    xs.foldl lowerBound .negInf = .negInf := by
  induction xs with
  | nil => rfl
  | cons x rest ih =>
    simp only [List.foldl_cons, lowerBound, JSNum.lt_negInf_right, Bool.false_eq_true, if_false]
    exact ih

/-- An upper bound that has met `+Infinity` is `+Infinity`. -/
theorem foldl_upperBound_of_mem_posInf (xs : List JSNum) (acc : JSNum) (hacc : acc ≠ .nan)
    (h : JSNum.posInf ∈ xs) : xs.foldl upperBound acc = .posInf := by
  induction xs generalizing acc with
  | nil => exact absurd h (List.not_mem_nil _)
  | cons x rest ih =>
    rw [List.foldl_cons]
    rcases List.mem_cons.mp h with hx | hx
    · rw [← hx, upperBound_posInf acc hacc, foldl_upperBound_posInf]
    · exact ih _ (upperBound_ne_nan acc x hacc) hx

/-- A lower bound that has met `-Infinity` is `-Infinity`. -/
theorem foldl_lowerBound_of_mem_negInf (xs : List JSNum) (acc : JSNum) (hacc : acc ≠ .nan)
    (h : JSNum.negInf ∈ xs) : xs.foldl lowerBound acc = .negInf := by
  induction xs generalizing acc with
  | nil => exact absurd h (List.not_mem_nil _)
  | cons x rest ih =>
    rw [List.foldl_cons]
    rcases List.mem_cons.mp h with hx | hx
    · rw [← hx, lowerBound_negInf acc hacc, foldl_lowerBound_negInf]
    · exact ih _ (lowerBound_ne_nan acc x hacc) hx

/-- A lower bound is not moved by `NaN` coordinates. -/
theorem foldl_lowerBound_all_nan (xs : List JSNum) (acc : JSNum)
    (h : ∀ x ∈ xs, x = .nan) : xs.foldl lowerBound acc = acc := by
  induction xs generalizing acc with
  | nil => rfl
  | cons x rest ih =>
    have hx : x = .nan := h x (List.mem_cons_self _ _)
    subst hx
    simp only [List.foldl_cons, lowerBound, JSNum.lt_nan_left, Bool.false_eq_true, if_false]
    exact ih acc (fun y hy => h y (List.mem_cons_of_mem _ hy))

/-- The bounding box has a bound that is not finite when some coordinate is infinite, or
when every coordinate on one axis is `NaN`. -/
theorem bboxOf_nonfinite (ps : List (JSNum × JSNum))
    (hbad : (∃ p ∈ ps, p.1 = .posInf ∨ p.1 = .negInf ∨ p.2 = .posInf ∨ p.2 = .negInf) ∨
      (∀ p ∈ ps, p.1 = .nan) ∨ (∀ p ∈ ps, p.2 = .nan)) :
    ∃ n ∈ bboxOf ps, n.isFinite = false := by
  rcases hbad with ⟨p, hp, h | h | h | h⟩ | h | h
  · have hmem : JSNum.posInf ∈ ps.map Prod.fst := List.mem_map.mpr ⟨p, hp, h⟩
    have heq := foldl_upperBound_of_mem_posInf _ .negInf (by simp) hmem
    exact ⟨.posInf, by simp [bboxOf, heq], rfl⟩
  · have hmem : JSNum.negInf ∈ ps.map Prod.fst := List.mem_map.mpr ⟨p, hp, h⟩
    have heq := foldl_lowerBound_of_mem_negInf _ .posInf (by simp) hmem
    exact ⟨.negInf, by simp [bboxOf, heq], rfl⟩
  · have hmem : JSNum.posInf ∈ ps.map Prod.snd := List.mem_map.mpr ⟨p, hp, h⟩
    have heq := foldl_upperBound_of_mem_posInf _ .negInf (by simp) hmem
    exact ⟨.posInf, by simp [bboxOf, heq], rfl⟩
  · have hmem : JSNum.negInf ∈ ps.map Prod.snd := List.mem_map.mpr ⟨p, hp, h⟩
    have heq := foldl_lowerBound_of_mem_negInf _ .posInf (by simp) hmem
    exact ⟨.negInf, by simp [bboxOf, heq], rfl⟩
  · have hall : ∀ x ∈ ps.map Prod.fst, x = JSNum.nan := by
      intro x hx
      obtain ⟨p, hp, rfl⟩ := List.mem_map.mp hx
      exact h p hp
    have heq := foldl_lowerBound_all_nan _ .posInf hall
    exact ⟨.posInf, by simp [bboxOf, heq], rfl⟩
  · have hall : ∀ x ∈ ps.map Prod.snd, x = JSNum.nan := by
      intro x hx
      obtain ⟨p, hp, rfl⟩ := List.mem_map.mp hx
      exact h p hp
    have heq := foldl_lowerBound_all_nan _ .posInf hall
    exact ⟨.posInf, by simp [bboxOf, heq], rfl⟩

/-- C2, as the code has it. With the envelope routine being the minimum bounding rectangle,
for a document with at least one feature in which some coordinate is infinite, or in which
every coordinate on one axis is `NaN`, with no extent override and the other collaborators
returning normally: the extent computation returns nothing and sends exactly one debug
event, and `mixinOverrides` (and `create`) still returns a descriptor, having sent that one
event; the descriptor's `extent` is what the base-level build left there (the structural
default), which need not be `undefined`. -/
theorem nonfinite_coordinate_leaves_default_extent (env : Env) (self : Fields)
    (geojson optionsArg sr : JSVal) (fields base : Fields) (features : List JSVal)
    (props : Fields) (ps : List (JSNum × JSNum))
    (hopt : orEmptyObject optionsArg = .obj fields)
    (hnoext : getField fields "extent" = .undefined)
    (hcap : getField fields "capabilities" ≠ .null)
    (hco : Cooperative (env.withEnvelope envelopeOf) self geojson (.obj fields) base)
    (hsr : (env.withEnvelope envelopeOf).getSpatialReference geojson
      (extentOptions (getField fields "inputCrs") (getField fields "sourceSR")
        (getField fields "extent")) = .ok sr)
    (hfeat : getProp geojson "features" = .ok (.arr features props)) (hne : features ≠ [])
    (hpos : documentPositions geojson = .ok ps)
    (hbad : (∃ p ∈ ps, p.1 = .posInf ∨ p.1 = .negInf ∨ p.2 = .posInf ∨ p.2 = .negInf) ∨
      (∀ p ∈ ps, p.1 = .nan) ∨ (∀ p ∈ ps, p.2 = .nan)) :
    calculateExtentFromFeatures (env.withEnvelope envelopeOf) geojson sr =
      ⟨.ok .undefined, [invalidGeometryMessage (env.withEnvelope envelopeOf)]⟩ ∧
    ∃ d, mixinOverrides (env.withEnvelope envelopeOf) self geojson optionsArg =
        ⟨.ok d, [invalidGeometryMessage (env.withEnvelope envelopeOf)]⟩ ∧
      getField d "extent" = getField base "extent" ∧
      (self = construct (env.withEnvelope envelopeOf) → ∀ input inputOptions,
        (env.withEnvelope envelopeOf).normalizeInput input inputOptions =
          .ok (.obj [("geojson", geojson), ("options", optionsArg)]) →
        create (env.withEnvelope envelopeOf) input inputOptions =
          ⟨.ok d, [invalidGeometryMessage (env.withEnvelope envelopeOf)]⟩) := by
  obtain ⟨n, hn, hfin⟩ := bboxOf_nonfinite ps hbad
  have henv : ∃ e, (env.withEnvelope envelopeOf).envelope geojson = .ok e ∧
      getProp e "bbox" = .ok (.arr ((bboxOf ps).map JSVal.num) []) := by
    have hval : (env.withEnvelope envelopeOf).envelope geojson =
        (documentPositions geojson >>= fun positions =>
          Except.ok (.obj [("type", .str "Feature"),
            ("bbox", jsArr ((bboxOf positions).map JSVal.num)), ("properties", .obj []),
            ("geometry", .obj [("type", .str "Polygon"),
              ("coordinates", jsArr [jsArr [
                jsArr [((bboxOf positions).map JSVal.num).getD 0 .undefined,
                  ((bboxOf positions).map JSVal.num).getD 1 .undefined],
                jsArr [((bboxOf positions).map JSVal.num).getD 2 .undefined,
                  ((bboxOf positions).map JSVal.num).getD 1 .undefined],
                jsArr [((bboxOf positions).map JSVal.num).getD 2 .undefined,
                  ((bboxOf positions).map JSVal.num).getD 3 .undefined],
                jsArr [((bboxOf positions).map JSVal.num).getD 0 .undefined,
                  ((bboxOf positions).map JSVal.num).getD 3 .undefined],
                jsArr [((bboxOf positions).map JSVal.num).getD 0 .undefined,
                  ((bboxOf positions).map JSVal.num).getD 1 .undefined]]])])])) := rfl
    rw [hval, hpos]
    exact ⟨_, rfl, by simp [getProp, getField, jsArr]⟩
  obtain ⟨e, he, hbbox⟩ := henv
  exact mixinOverrides_of_invalid_bbox (env.withEnvelope envelopeOf) self geojson optionsArg sr e
    fields base features ((bboxOf ps).map JSVal.num) props [] hopt hnoext hcap hco hsr hfeat hne
    he hbbox ⟨.num n, List.mem_map_of_mem _ hn, by simpa [isFiniteJS] using hfin⟩

/-- C2, on a single `[NaN, NaN]` point with structural defaults that carry an extent. -/
theorem nonfinite_coordinate_leaves_default_extent_witness :
    calculateExtentFromFeatures (worldEnv.withEnvelope envelopeOf) nanPoints wgs84 =
      ⟨.ok .undefined, [invalidGeometryMessage (worldEnv.withEnvelope envelopeOf)]⟩ ∧
    ∃ d, mixinOverrides (worldEnv.withEnvelope envelopeOf)
        (construct (worldEnv.withEnvelope envelopeOf)) nanPoints (.obj []) =
        ⟨.ok d, [invalidGeometryMessage (worldEnv.withEnvelope envelopeOf)]⟩ ∧
      getField d "extent" = getField (construct (worldEnv.withEnvelope envelopeOf)) "extent" ∧
      (construct (worldEnv.withEnvelope envelopeOf) =
          construct (worldEnv.withEnvelope envelopeOf) → ∀ input inputOptions,
        (worldEnv.withEnvelope envelopeOf).normalizeInput input inputOptions =
          .ok (.obj [("geojson", nanPoints), ("options", .obj [])]) →
        create (worldEnv.withEnvelope envelopeOf) input inputOptions =
          ⟨.ok d, [invalidGeometryMessage (worldEnv.withEnvelope envelopeOf)]⟩) :=
  nonfinite_coordinate_leaves_default_extent worldEnv
    (construct (worldEnv.withEnvelope envelopeOf)) nanPoints (.obj []) wgs84
    [] (construct (worldEnv.withEnvelope envelopeOf)) [pointFeature .nan .nan] []
    [(.nan, .nan)]
    rfl rfl (by simp [getField])
    ⟨rfl, ⟨[], rfl⟩, ⟨.undefined, rfl⟩, fun s => ⟨s, rfl, rfl⟩⟩
    rfl rfl (by simp) rfl (Or.inr (Or.inl (by simp)))

/-- C2, counterexample. The claim fails in its premise and in its conclusion.  A feature
collection holding `[NaN, 5]` beside `[1, 2]` contains a coordinate that is not finite, yet
the envelope skips it: the descriptor gets the extent `{ xmin: 1, ymin: 2, xmax: 1, ymax: 5 }`
and no debug event is sent.  And with structural defaults that carry an extent, a feature
collection whose only position is `[NaN, NaN]` yields a descriptor and one debug event, but
the descriptor's `extent` is the default one, not `undefined`. -/
theorem nonfinite_coordinate_extent_not_undefined :
    ((create demoEnv nanBesideFinite (.obj [])).out.map (fun d => getField d "extent") =
        .ok (extentObject (jsNum 1) (jsNum 2) (jsNum 1) (jsNum 5) wgs84) ∧
      (create demoEnv nanBesideFinite (.obj [])).log = [] ∧
      extentObject (jsNum 1) (jsNum 2) (jsNum 1) (jsNum 5) wgs84 ≠ .undefined) ∧
    ((create worldEnv nanPoints (.obj [])).out.map (fun d => getField d "extent") =
        .ok worldExtent ∧
      (create worldEnv nanPoints (.obj [])).log = [invalidGeometryMessage worldEnv] ∧
      worldExtent ≠ .undefined) :=
  ⟨⟨rfl, rfl, by simp [extentObject]⟩, ⟨rfl, rfl, by simp [worldExtent, extentObject]⟩⟩

/-! ## What a returned extent looks like -/

theorem extentFromEnvelope_inv (env : Env) (geojson sr v : JSVal)
    (h : extentFromEnvelope env geojson sr = .ok v) :
    ∃ e items props, env.envelope geojson = .ok e ∧ getProp e "bbox" = .ok (.arr items props) ∧
      (∀ x ∈ items, isFiniteJS env x = true) ∧
      v = extentObject (items.getD 0 .undefined) (items.getD 1 .undefined)
        (items.getD 2 .undefined) (items.getD 3 .undefined) sr := by
  unfold extentFromEnvelope at h
  cases henv : env.envelope geojson with
  | error e => simp [henv, bind, Except.bind] at h
  | ok e =>
    cases hbbox : getProp e "bbox" with
    | error e' => simp [henv, hbbox, bind, Except.bind] at h
    | ok bbox =>
      cases bbox with
      | arr items props =>
        cases hchk : checkCoordinates env items with
        | error e' =>
          simp [henv, hbbox, bind, Except.bind, forEachCoordinate, hchk] at h
        | ok u =>
          refine ⟨e, items, props, rfl, hbbox, checkCoordinates_finite env items hchk, ?_⟩
          simp [henv, hbbox, bind, Except.bind, forEachCoordinate, hchk, arrayPatternGet,
            pure, Except.pure] at h
          rw [← h]
          simp [extentObject]
      | undefined => simp [henv, hbbox, bind, Except.bind, forEachCoordinate] at h
      | null => simp [henv, hbbox, bind, Except.bind, forEachCoordinate] at h
      | bool b => simp [henv, hbbox, bind, Except.bind, forEachCoordinate] at h
      | num n => simp [henv, hbbox, bind, Except.bind, forEachCoordinate] at h
      | str s => simp [henv, hbbox, bind, Except.bind, forEachCoordinate] at h
      | obj fields => simp [henv, hbbox, bind, Except.bind, forEachCoordinate] at h

/-- Whatever `calculateExtentFromFeatures` returns is `undefined` or the silent result of
the `try` block. -/
theorem calculateExtent_inv (env : Env) (geojson sr v : JSVal) (log : List String)
    (h : calculateExtentFromFeatures env geojson sr = ⟨.ok v, log⟩) :
    v = .undefined ∨ (extentFromEnvelope env geojson sr = .ok v ∧ log = []) := by
  unfold calculateExtentFromFeatures at h
  cases hfeat : getProp geojson "features" with
  | error e => simp [hfeat, Run.andThen, Run.call] at h
  | ok f =>
    cases hf : toBoolean f with
    | false =>
      simp [hfeat, hf, Run.andThen, Run.call, Run.ret] at h
      exact Or.inl h.1.symm
    | true =>
      cases hlen : getProp f "length" with
      | error e => simp [hfeat, hf, hlen, Run.andThen, Run.call, Run.ret] at h
      | ok len =>
        cases hz : strictEqNum len 0 with
        | true =>
          simp [hfeat, hf, hlen, hz, Run.andThen, Run.call, Run.ret] at h
          exact Or.inl h.1.symm
        | false =>
          cases hbody : extentFromEnvelope env geojson sr with
          | ok w =>
            simp [hfeat, hf, hlen, hz, hbody, Run.andThen, Run.call, Run.ret, Run.tryCatch] at h
            exact Or.inr ⟨by rw [h.1], h.2⟩
          | error e =>
            cases hm : getProp e "message" with
            | error e' =>
              simp [hfeat, hf, hlen, hz, hbody, hm, Run.andThen, Run.call, Run.ret,
                Run.tryCatch] at h
            | ok m =>
              simp [hfeat, hf, hlen, hz, hbody, hm, Run.andThen, Run.call, Run.ret,
                Run.tryCatch, Run.debug] at h
              exact Or.inl h.1.symm

/-- What the validation does establish.  Whatever `calculateExtentFromFeatures` returns is
nothing or, silently, the extent made of the first four entries of the envelope's `bbox`
array, every entry of which passes the coercing global `isFinite`; when `bbox` holds at
least four entries, all of them numbers, the four bounds are finite numbers. -/
theorem returned_extent_has_checked_bounds (env : Env) (geojson sr v : JSVal)
    (log : List String) (h : calculateExtentFromFeatures env geojson sr = ⟨.ok v, log⟩) :
    v = .undefined ∨
    ∃ e items props, env.envelope geojson = .ok e ∧
      getProp e "bbox" = .ok (.arr items props) ∧ log = [] ∧
      v = extentObject (items.getD 0 .undefined) (items.getD 1 .undefined)
        (items.getD 2 .undefined) (items.getD 3 .undefined) sr ∧
      (∀ x ∈ items, isFiniteJS env x = true) ∧
      ((∀ x ∈ items, ∃ n, x = .num n) → 4 ≤ items.length →
        ∃ xmin ymin xmax ymax : ℚ,
          v = extentObject (jsNum xmin) (jsNum ymin) (jsNum xmax) (jsNum ymax) sr) := by
  rcases calculateExtent_inv env geojson sr v log h with hv | ⟨hbody, hlog⟩
  · exact Or.inl hv
  · obtain ⟨e, items, props, henv, hbbox, hfin, hv⟩ := extentFromEnvelope_inv env geojson sr v hbody
    refine Or.inr ⟨e, items, props, henv, hbbox, hlog, hv, hfin, ?_⟩
    intro hnum hlen
    have key : ∀ x ∈ items, ∃ q : ℚ, x = jsNum q := by
      intro x hx
      obtain ⟨n, rfl⟩ := hnum x hx
      have hf := hfin _ hx
      cases n with
      | fin q => exact ⟨q, rfl⟩
      | nan => simp [isFiniteJS, JSNum.isFinite] at hf
      | posInf => simp [isFiniteJS, JSNum.isFinite] at hf
      | negInf => simp [isFiniteJS, JSNum.isFinite] at hf
    match items, hlen, key, hv with
    | a :: b :: c :: d :: rest, _, key, hv =>
      obtain ⟨qa, rfl⟩ := key a (by simp)
      obtain ⟨qb, rfl⟩ := key b (by simp)
      obtain ⟨qc, rfl⟩ := key c (by simp)
      obtain ⟨qd, rfl⟩ := key d (by simp)
      exact ⟨qa, qb, qc, qd, by simpa using hv⟩

/-- The validation on the two points `[1, 2]` and `[3, 4]`. -/
theorem returned_extent_has_checked_bounds_witness :
    extentObject (jsNum 1) (jsNum 2) (jsNum 3) (jsNum 4) wgs84 = .undefined ∨
    ∃ e items props, demoEnv.envelope twoPoints = .ok e ∧
      getProp e "bbox" = .ok (.arr items props) ∧ ([] : List String) = [] ∧
      extentObject (jsNum 1) (jsNum 2) (jsNum 3) (jsNum 4) wgs84 =
        extentObject (items.getD 0 .undefined) (items.getD 1 .undefined)
          (items.getD 2 .undefined) (items.getD 3 .undefined) wgs84 ∧
      (∀ x ∈ items, isFiniteJS demoEnv x = true) ∧
      ((∀ x ∈ items, ∃ n, x = .num n) → 4 ≤ items.length →
        ∃ xmin ymin xmax ymax : ℚ,
          extentObject (jsNum 1) (jsNum 2) (jsNum 3) (jsNum 4) wgs84 =
            extentObject (jsNum xmin) (jsNum ymin) (jsNum xmax) (jsNum ymax) wgs84) :=
  returned_extent_has_checked_bounds demoEnv twoPoints wgs84
    (extentObject (jsNum 1) (jsNum 2) (jsNum 3) (jsNum 4) wgs84) [] rfl

/-- C3. The claim, that no extent with a missing, non-numeric, `NaN` or infinite bound is
ever returned, fails on the code.  For a feature collection with a point at `[null, null]`
the envelope's `bbox` is `[null, null, null, null]`; every entry passes the validation,
because the global `isFinite` coerces `null` to `0`, no debug event is sent, and the extent
returned, and written to the descriptor, has `null`, which is no number, for each of its
four bounds. -/
theorem null_bounds_are_returned :
    calculateExtentFromFeatures nullBoxEnv nullPoint wgs84 =
      ⟨.ok (extentObject .null .null .null .null wgs84), []⟩ ∧
    (create nullBoxEnv nullPoint (.obj [])).out.map (fun d => getField d "extent") =
      .ok (extentObject .null .null .null .null wgs84) ∧
    (create nullBoxEnv nullPoint (.obj [])).log = [] ∧
    (∀ x ∈ [JSVal.null, .null, .null, .null], isFiniteJS nullBoxEnv x = true) ∧
    ∀ q : ℚ, JSVal.null ≠ jsNum q :=
  ⟨rfl, rfl, rfl, by simp [isFiniteJS], fun q h => by simp [jsNum] at h⟩

/-! ## The extent override -/

/-- C4. When `options.extent` is present (truthy, as the code tests it) and the spatial
reference resolves, `getLayerExtent` is exactly `normalizeExtent(options.extent,
spatialReference)`, whatever the document's features are; it does not depend on the
envelope routine, emits no debug event, and a truthy result is what `#_setExtent` writes to
the descriptor. -/
theorem extent_override_is_normalized (env : Env) (self : Fields)
    (geojson options sr extent : JSVal)
    (hsr : env.getSpatialReference geojson options = .ok sr)
    (hext : getProp options "extent" = .ok extent) (hpresent : toBoolean extent = true) :
    getLayerExtent env geojson options = ⟨env.normalizeExtent extent sr, []⟩ ∧
    (∀ f, getLayerExtent (env.withEnvelope f) geojson options =
      ⟨env.normalizeExtent extent sr, []⟩) ∧
    (∀ geojson', env.getSpatialReference geojson' options = .ok sr →
      getLayerExtent env geojson' options = getLayerExtent env geojson options) ∧
    (∀ v, env.normalizeExtent extent sr = .ok v → toBoolean v = true →
      _setExtent env self geojson options = ⟨.ok (setField self "extent" v), []⟩) := by
  have key : ∀ (env' : Env) (g : JSVal), env'.getSpatialReference g options = .ok sr →
      getLayerExtent env' g options = ⟨env'.normalizeExtent extent sr, []⟩ := by
    intro env' g hsr'
    simp [getLayerExtent, hsr', hext, hpresent, Run.call, Run.andThen]
  have h1 := key env geojson hsr
  refine ⟨h1, ?_, ?_, ?_⟩
  · intro f
    exact key (env.withEnvelope f) geojson hsr
  · intro geojson' hsr'
    rw [h1]
    exact key env geojson' hsr'
  · intro v hv hvt
    have h2 := setExtent_of_ok env self geojson options v [] (by rw [h1, hv])
    simpa [hvt] using h2

/-- C4, on the two-point document with an array override. -/
theorem extent_override_is_normalized_witness :
    getLayerExtent demoEnv twoPoints (.obj [("extent", sampleOverride)]) =
      ⟨demoEnv.normalizeExtent sampleOverride wgs84, []⟩ ∧
    (∀ f, getLayerExtent (demoEnv.withEnvelope f) twoPoints (.obj [("extent", sampleOverride)]) =
      ⟨demoEnv.normalizeExtent sampleOverride wgs84, []⟩) ∧
    (∀ geojson', demoEnv.getSpatialReference geojson' (.obj [("extent", sampleOverride)]) =
        .ok wgs84 →
      getLayerExtent demoEnv geojson' (.obj [("extent", sampleOverride)]) =
        getLayerExtent demoEnv twoPoints (.obj [("extent", sampleOverride)])) ∧
    (∀ v, demoEnv.normalizeExtent sampleOverride wgs84 = .ok v → toBoolean v = true →
      _setExtent demoEnv [] twoPoints (.obj [("extent", sampleOverride)]) =
        ⟨.ok (setField [] "extent" v), []⟩) :=
  extent_override_is_normalized demoEnv [] twoPoints (.obj [("extent", sampleOverride)]) wgs84
    sampleOverride rfl rfl rfl

/-! ## The empty feature collection -/

/-- C5, as the code has it. For an empty features list, with no extent override and the
collaborators returning normally, the extent computation returns nothing, silently, and
`mixinOverrides` returns a descriptor whose `extent` is what the base-level build left
there (the structural default), which need not be `undefined`. -/
theorem empty_collection_leaves_default_extent (env : Env) (self : Fields)
    (geojson optionsArg sr : JSVal) (fields base props : Fields)
    (hopt : orEmptyObject optionsArg = .obj fields)
    (hnoext : getField fields "extent" = .undefined)
    (hcap : getField fields "capabilities" ≠ .null)
    (hco : Cooperative env self geojson (.obj fields) base)
    (hsr : env.getSpatialReference geojson (extentOptions (getField fields "inputCrs")
      (getField fields "sourceSR") (getField fields "extent")) = .ok sr)
    (hfeat : getProp geojson "features" = .ok (.arr [] props)) :
    calculateExtentFromFeatures env geojson sr = ⟨.ok .undefined, []⟩ ∧
    ∃ d, mixinOverrides env self geojson optionsArg = ⟨.ok d, []⟩ ∧
      getField d "extent" = getField base "extent" ∧
      (self = construct env → ∀ input inputOptions,
        env.normalizeInput input inputOptions =
          .ok (.obj [("geojson", geojson), ("options", optionsArg)]) →
        create env input inputOptions = ⟨.ok d, []⟩) := by
  have hcalc := calculateExtent_of_empty env geojson sr props hfeat
  refine ⟨hcalc, ?_⟩
  have hget : getLayerExtent env geojson (extentOptions (getField fields "inputCrs")
      (getField fields "sourceSR") (getField fields "extent")) = ⟨.ok .undefined, []⟩ := by
    rw [getLayerExtent_of_no_override env geojson _ sr .undefined hsr
      (by simp [extentOptions, getProp, getField, hnoext]) rfl, hcalc]
  obtain ⟨d, hd, hde⟩ := mixinOverrides_of_extent env self geojson optionsArg fields base
    .undefined _ hopt hcap hco hget
  refine ⟨d, hd, by simpa [toBoolean] using hde, ?_⟩
  intro hself input inputOptions hnorm
  rw [create_of_normalized env input inputOptions geojson optionsArg hnorm, ← hself, hd]

/-- C5, on the empty collection with an absent options argument. -/
theorem empty_collection_leaves_default_extent_witness :
    calculateExtentFromFeatures demoEnv emptyCollection wgs84 = ⟨.ok .undefined, []⟩ ∧
    ∃ d, mixinOverrides demoEnv (construct demoEnv) emptyCollection .undefined = ⟨.ok d, []⟩ ∧
      getField d "extent" = getField (construct demoEnv) "extent" ∧
      (construct demoEnv = construct demoEnv → ∀ input inputOptions,
        demoEnv.normalizeInput input inputOptions =
          .ok (.obj [("geojson", emptyCollection), ("options", .undefined)]) →
        create demoEnv input inputOptions = ⟨.ok d, []⟩) :=
  empty_collection_leaves_default_extent demoEnv (construct demoEnv) emptyCollection
    .undefined wgs84 [] (construct demoEnv) []
    rfl rfl (by simp [getField])
    ⟨rfl, ⟨[], rfl⟩, ⟨.undefined, rfl⟩, fun s => ⟨s, rfl, rfl⟩⟩
    rfl rfl

/-- C5, counterexample. With structural defaults that carry an extent, the descriptor built
from the empty feature collection has that default extent, not `undefined`. -/
theorem empty_collection_extent_not_undefined :
    (create worldEnv emptyCollection (.obj [])).out.map (fun d => getField d "extent") =
      .ok worldExtent ∧
    (create worldEnv emptyCollection (.obj [])).log = [] ∧
    worldExtent ≠ .undefined :=
  ⟨rfl, rfl, by simp [worldExtent, extentObject]⟩

/-! ## Renderer selection -/

/-- C6. On a descriptor with a `drawingInfo` object, `#_setRenderer` stores under
`drawingInfo.renderer`: the renderer of the options when it is present (truthy), as it is;
otherwise the default polygon renderer when `geometryType` is `esriGeometryPolygon`; otherwise
the default line renderer when it is `esriGeometryPolyline`; otherwise, for every other value
of `geometryType`, the default point renderer.  Nothing else of the descriptor changes. -/
theorem renderer_precedence (env : Env) (self : Fields) (renderer : JSVal) (dinfo : Fields)
    (hd : getField self "drawingInfo" = .obj dinfo) :
    ∃ r, _setRenderer env self renderer =
        .ok (setField self "drawingInfo" (.obj (setField dinfo "renderer" r))) ∧
      getProp (getField (setField self "drawingInfo" (.obj (setField dinfo "renderer" r)))
        "drawingInfo") "renderer" = .ok r ∧
      (toBoolean renderer = true → r = renderer) ∧
      (toBoolean renderer = false →
        getField self "geometryType" = .str "esriGeometryPolygon" → r = env.polygonRenderer) ∧
      (toBoolean renderer = false →
        getField self "geometryType" = .str "esriGeometryPolyline" → r = env.lineRenderer) ∧
      (toBoolean renderer = false →
        getField self "geometryType" ≠ .str "esriGeometryPolygon" →
        getField self "geometryType" ≠ .str "esriGeometryPolyline" → r = env.pointRenderer) := by
  have hread : ∀ r, getProp (getField (setField self "drawingInfo"
      (.obj (setField dinfo "renderer" r))) "drawingInfo") "renderer" = .ok r := by
    intro r
    rw [getField_setField_same, getProp_obj, getField_setField_same]
  have hstr : ∀ (g : JSVal) (s : String), strictEqStr g s = true ↔ g = .str s := by
    intro g s
    cases g <;> simp [strictEqStr]
  cases hr : toBoolean renderer with
  | true =>
    refine ⟨renderer, ?_, hread _, fun _ => rfl, ?_, ?_, ?_⟩
    · simp [_setRenderer, hr, setDrawingInfo_obj self _ _ dinfo hd]
    · intro h; exact absurd h (by decide)
    · intro h; exact absurd h (by decide)
    · intro h; exact absurd h (by decide)
  | false =>
    by_cases hpoly : getField self "geometryType" = .str "esriGeometryPolygon"
    · refine ⟨env.polygonRenderer, ?_, hread _, ?_, fun _ _ => rfl, ?_, ?_⟩
      · simp [_setRenderer, hr, (hstr _ _).mpr hpoly, setDrawingInfo_obj self _ _ dinfo hd]
      · intro h; exact absurd h (by decide)
      · intro _ h
        rw [hpoly] at h
        simp at h
      · intro _ h
        exact absurd hpoly h
    · have hp : strictEqStr (getField self "geometryType") "esriGeometryPolygon" = false := by
        cases hb : strictEqStr (getField self "geometryType") "esriGeometryPolygon"
        · rfl
        · exact absurd ((hstr _ _).mp hb) hpoly
      by_cases hline : getField self "geometryType" = .str "esriGeometryPolyline"
      · refine ⟨env.lineRenderer, ?_, hread _, ?_, ?_, fun _ _ => rfl, ?_⟩
        · simp [_setRenderer, hr, hp, (hstr _ _).mpr hline,
            setDrawingInfo_obj self _ _ dinfo hd]
        · intro h; exact absurd h (by decide)
        · intro _ h
          exact absurd h hpoly
        · intro _ _ h
          exact absurd hline h
      · have hl : strictEqStr (getField self "geometryType") "esriGeometryPolyline" = false := by
          cases hb : strictEqStr (getField self "geometryType") "esriGeometryPolyline"
          · rfl
          · exact absurd ((hstr _ _).mp hb) hline
        refine ⟨env.pointRenderer, ?_, hread _, ?_, ?_, ?_, fun _ _ _ => rfl⟩
        · simp [_setRenderer, hr, hp, hl, setDrawingInfo_obj self _ _ dinfo hd]
        · intro h; exact absurd h (by decide)
        · intro _ h
          exact absurd h hpoly
        · intro _ h
          exact absurd h hline

/-- C6, on a polyline descriptor without a renderer option. -/
theorem renderer_precedence_witness :
    ∃ r, _setRenderer demoEnv
        [("drawingInfo", .obj []), ("geometryType", .str "esriGeometryPolyline")] .undefined =
        .ok (setField [("drawingInfo", .obj []), ("geometryType", .str "esriGeometryPolyline")]
          "drawingInfo" (.obj (setField [] "renderer" r))) ∧
      getProp (getField (setField
        [("drawingInfo", .obj []), ("geometryType", .str "esriGeometryPolyline")]
        "drawingInfo" (.obj (setField [] "renderer" r))) "drawingInfo") "renderer" = .ok r ∧
      (toBoolean .undefined = true → r = .undefined) ∧
      (toBoolean .undefined = false →
        getField [("drawingInfo", JSVal.obj []), ("geometryType", .str "esriGeometryPolyline")]
          "geometryType" = .str "esriGeometryPolygon" → r = demoEnv.polygonRenderer) ∧
      (toBoolean .undefined = false →
        getField [("drawingInfo", JSVal.obj []), ("geometryType", .str "esriGeometryPolyline")]
          "geometryType" = .str "esriGeometryPolyline" → r = demoEnv.lineRenderer) ∧
      (toBoolean .undefined = false →
        getField [("drawingInfo", JSVal.obj []), ("geometryType", .str "esriGeometryPolyline")]
          "geometryType" ≠ .str "esriGeometryPolygon" →
        getField [("drawingInfo", JSVal.obj []), ("geometryType", .str "esriGeometryPolyline")]
          "geometryType" ≠ .str "esriGeometryPolyline" → r = demoEnv.pointRenderer) :=
  renderer_precedence demoEnv
    [("drawingInfo", .obj []), ("geometryType", .str "esriGeometryPolyline")] .undefined [] rfl

/-! ## Exceptions of the envelope routine -/

/-- C7. For a document with at least one feature and no extent override, if the envelope
routine throws, whatever the value thrown is among those a `message` can be read from (an
error object, a string, a number, any value but `null` and `undefined`), the computation does
not propagate it: it returns nothing and sends exactly one debug event (built from the
`message` of the thrown value), and with the collaborators returning normally
`mixinOverrides` (and `create`) completes and returns a descriptor, having sent that one
event, with no extent written: its `extent` is what the base-level build left there. -/
theorem envelope_exception_is_swallowed (env : Env) (self : Fields)
    (geojson optionsArg sr e : JSVal) (fields base : Fields) (features : List JSVal)
    (props : Fields)
    (hopt : orEmptyObject optionsArg = .obj fields)
    (hnoext : getField fields "extent" = .undefined)
    (hcap : getField fields "capabilities" ≠ .null)
    (hco : Cooperative env self geojson (.obj fields) base)
    (hsr : env.getSpatialReference geojson (extentOptions (getField fields "inputCrs")
      (getField fields "sourceSR") (getField fields "extent")) = .ok sr)
    (hfeat : getProp geojson "features" = .ok (.arr features props)) (hne : features ≠ [])
    (hthrow : env.envelope geojson = .error e)
    (hundef : e ≠ .undefined) (hnull : e ≠ .null) :
    ∃ m, getProp e "message" = .ok m ∧
      calculateExtentFromFeatures env geojson sr =
        ⟨.ok .undefined, ["Could not calculate extent from data: " ++ env.toDisplayString m]⟩ ∧
      ∃ d, mixinOverrides env self geojson optionsArg =
          ⟨.ok d, ["Could not calculate extent from data: " ++ env.toDisplayString m]⟩ ∧
        getField d "extent" = getField base "extent" ∧
        (self = construct env → ∀ input inputOptions,
          env.normalizeInput input inputOptions =
            .ok (.obj [("geojson", geojson), ("options", optionsArg)]) →
          create env input inputOptions =
            ⟨.ok d, ["Could not calculate extent from data: " ++ env.toDisplayString m]⟩) := by
  obtain ⟨m, hm⟩ := getProp_defined e "message" hundef hnull
  have hcalc := calculateExtent_of_error env geojson sr e m features props hfeat hne
    (extentFromEnvelope_throws env geojson sr e hthrow) hm
  refine ⟨m, hm, hcalc, ?_⟩
  have hget : getLayerExtent env geojson (extentOptions (getField fields "inputCrs")
      (getField fields "sourceSR") (getField fields "extent")) =
      ⟨.ok .undefined, ["Could not calculate extent from data: " ++ env.toDisplayString m]⟩ := by
    rw [getLayerExtent_of_no_override env geojson _ sr .undefined hsr
      (by simp [extentOptions, getProp, getField, hnoext]) rfl, hcalc]
  obtain ⟨d, hd, hde⟩ := mixinOverrides_of_extent env self geojson optionsArg fields base
    .undefined _ hopt hcap hco hget
  refine ⟨d, hd, by simpa [toBoolean] using hde, ?_⟩
  intro hself input inputOptions hnorm
  rw [create_of_normalized env input inputOptions geojson optionsArg hnorm, ← hself, hd]

/-- C7, on an envelope routine that throws the string `"boom"`. -/
theorem envelope_exception_is_swallowed_witness :
    ∃ m, getProp (.str "boom") "message" = .ok m ∧
      calculateExtentFromFeatures (throwingEnv (.str "boom")) twoPoints wgs84 =
        ⟨.ok .undefined, ["Could not calculate extent from data: " ++
          (throwingEnv (.str "boom")).toDisplayString m]⟩ ∧
      ∃ d, mixinOverrides (throwingEnv (.str "boom")) (construct (throwingEnv (.str "boom")))
          twoPoints (.obj []) =
          ⟨.ok d, ["Could not calculate extent from data: " ++
            (throwingEnv (.str "boom")).toDisplayString m]⟩ ∧
        getField d "extent" = getField (construct (throwingEnv (.str "boom"))) "extent" ∧
        (construct (throwingEnv (.str "boom")) = construct (throwingEnv (.str "boom")) →
          ∀ input inputOptions,
          (throwingEnv (.str "boom")).normalizeInput input inputOptions =
            .ok (.obj [("geojson", twoPoints), ("options", .obj [])]) →
          create (throwingEnv (.str "boom")) input inputOptions =
            ⟨.ok d, ["Could not calculate extent from data: " ++
              (throwingEnv (.str "boom")).toDisplayString m]⟩) :=
  envelope_exception_is_swallowed (throwingEnv (.str "boom"))
    (construct (throwingEnv (.str "boom"))) twoPoints
    (.obj []) wgs84 (.str "boom") [] (construct (throwingEnv (.str "boom")))
    [pointFeature (.fin 1) (.fin 2), pointFeature (.fin 3) (.fin 4)] []
    rfl rfl (by simp [getField])
    ⟨rfl, ⟨[], rfl⟩, ⟨.undefined, rfl⟩, fun s => ⟨s, rfl, rfl⟩⟩
    rfl rfl (by simp) rfl (by simp) (by simp)

/-- The limit of the handler, on a stub that no envelope routine matches: were the routine
to throw `null`, reading `error.message` in the handler would throw a `TypeError`, and the
computation and `mixinOverrides` would fail with it without a debug event. -/
theorem thrown_null_is_not_swallowed :
    calculateExtentFromFeatures (throwingEnv .null) twoPoints wgs84 =
      ⟨.error (typeError "Cannot read properties of null, reading message"), []⟩ ∧
    mixinOverrides (throwingEnv .null) (construct (throwingEnv .null)) twoPoints (.obj []) =
      ⟨.error (typeError "Cannot read properties of null, reading message"), []⟩ ∧
    create (throwingEnv .null) twoPoints (.obj []) =
      ⟨.error (typeError "Cannot read properties of null, reading message"), []⟩ :=
  ⟨rfl, rfl, rfl⟩

/-! ## Failures of the spatial-reference resolver -/

/-- C8. Whenever the spatial-reference resolver throws `e` on an input, `getLayerExtent` and
`#_setExtent` throw that same `e` on it, silently, whether or not the options hold an
extent override and whether or not the document has features; and when the steps of
`mixinOverrides` that come before the extent step return (base-level build, destructuring
of an options object whose `capabilities` is not `null`, geometry type) and the resolver
throws `e` on the document and `{ inputCrs, sourceSR, extent }`, then `mixinOverrides`
throws that same `e`, and so does `create` on input normalized to this document and
options. -/
theorem resolver_failure_propagates (env : Env) (self : Fields)
    (geojson optionsArg e : JSVal) (fields base : Fields)
    (hopt : orEmptyObject optionsArg = .obj fields)
    (hcap : getField fields "capabilities" ≠ .null)
    (hmix : env.tableMixinOverrides self geojson (.obj fields) = .ok base)
    (hgeo : ∃ g, env.getGeometryTypeFromGeojson (spread geojson (.obj fields)) = .ok g)
    (hfail : env.getSpatialReference geojson (extentOptions (getField fields "inputCrs")
      (getField fields "sourceSR") (getField fields "extent")) = .error e) :
    (∀ s document options e', env.getSpatialReference document options = .error e' →
      getLayerExtent env document options = ⟨.error e', []⟩ ∧
      _setExtent env s document options = ⟨.error e', []⟩) ∧
    mixinOverrides env self geojson optionsArg = ⟨.error e, []⟩ ∧
    (∀ input inputOptions, env.normalizeInput input inputOptions =
        .ok (.obj [("geojson", geojson), ("options", optionsArg)]) → self = construct env →
      create env input inputOptions = ⟨.error e, []⟩) := by
  have h1 : ∀ document options e', env.getSpatialReference document options = .error e' →
      getLayerExtent env document options = ⟨.error e', []⟩ := by
    intro document options e' h
    simp [getLayerExtent, h, Run.call, Run.andThen]
  have h2 : ∀ (s : Fields) document options e',
      env.getSpatialReference document options = .error e' →
      _setExtent env s document options = ⟨.error e', []⟩ :=
    fun s document options e' h =>
      setExtent_of_error env s document options e' [] (h1 document options e' h)
  have h3 : mixinOverrides env self geojson optionsArg = ⟨.error e, []⟩ := by
    obtain ⟨g, hg⟩ := hgeo
    obtain ⟨q, hq⟩ := getProp_defined (orEmptyObject (getField fields "capabilities"))
      "quantization" (orEmptyObject_ne_undefined _) (orEmptyObject_ne_null _ hcap)
    simp only [mixinOverrides, hopt, hmix, Run.bind_eq, Run.call_andThen_ok, getProp_obj,
      Except.map, hg, hq, Run.pure_eq]
    rw [h2 _ _ _ e hfail]
    simp [Run.andThen]
  refine ⟨fun s document options e' h => ⟨h1 document options e' h, h2 s document options e' h⟩,
    h3, ?_⟩
  intro input inputOptions hnorm hself
  subst hself
  simp only [create, hnorm, Run.bind_eq, Run.call_andThen_ok, getProp_obj]
  have hg1 : getField [("geojson", geojson), ("options", optionsArg)] "geojson" = geojson := by
    simp [getField]
  have hg2 : getField [("geojson", geojson), ("options", optionsArg)] "options" = optionsArg := by
    simp [getField]
  rw [hg1, hg2, h3]

/-- C8, on a resolver that throws an error object, for the two-point document with an
extent override, built through `create`. -/
theorem resolver_failure_propagates_witness :
    (∀ s document options e',
      (unresolvedEnv (mkError "Error" "unknown crs")).getSpatialReference document options =
        .error e' →
      getLayerExtent (unresolvedEnv (mkError "Error" "unknown crs")) document options =
        ⟨.error e', []⟩ ∧
      _setExtent (unresolvedEnv (mkError "Error" "unknown crs")) s document options =
        ⟨.error e', []⟩) ∧
    mixinOverrides (unresolvedEnv (mkError "Error" "unknown crs"))
      (construct (unresolvedEnv (mkError "Error" "unknown crs"))) twoPoints
      (.obj [("extent", sampleOverride)]) = ⟨.error (mkError "Error" "unknown crs"), []⟩ ∧
    create (unresolvedEnv (mkError "Error" "unknown crs")) twoPoints
      (.obj [("extent", sampleOverride)]) = ⟨.error (mkError "Error" "unknown crs"), []⟩ :=
  have h := resolver_failure_propagates (unresolvedEnv (mkError "Error" "unknown crs"))
    (construct (unresolvedEnv (mkError "Error" "unknown crs"))) twoPoints
    (.obj [("extent", sampleOverride)]) (mkError "Error" "unknown crs")
    [("extent", sampleOverride)] (construct (unresolvedEnv (mkError "Error" "unknown crs")))
    rfl (by simp [getField]) rfl ⟨.undefined, rfl⟩ rfl
  ⟨h.1, h.2.1, h.2.2 twoPoints (.obj [("extent", sampleOverride)]) rfl rfl⟩

/-! ## The scale thresholds -/

theorem getField_of_not_hasField (fields : Fields) (k : String)
    (h : hasField fields k = false) : getField fields k = .undefined := by
  induction fields with
  | nil => rfl
  | cons kv rest ih =>
    obtain ⟨k', v⟩ := kv
    by_cases hk : k' = k
    · simp [hasField, hk] at h
    · simp only [hasField, hk, if_false] at h
      simp [getField, hk, ih h]

/-- Merging an `undefined` source value leaves the value read under the key as it was. -/
theorem getField_mergeEntry_undefined (env : Env) (object : Fields) (key : String) :
    getField (mergeEntry env object key .undefined) key = getField object key := by
  cases h : hasField object key with
  | true => simp [mergeEntry, isObject, h]
  | false =>
    simp only [mergeEntry, isObject, h, Bool.false_eq_true, if_false]
    rw [getField_setField_same, getField_of_not_hasField object key h]

/-- C9. In `#_setDirectOverrides`, after the base-level overrides have produced `base`, the
merge of `{ minScale, maxScale }` never replaces a value by `undefined`: when
`options.maxScale` is absent or `undefined` the descriptor's `maxScale` is the one of `base`,
and likewise for `minScale`; so passing only `minScale` leaves `maxScale` untouched, and
passing neither leaves both untouched.  No other property is touched by the merge. -/
theorem scale_merge_keeps_existing (env : Env) (self base : Fields) (options : JSVal)
    (hbase : env.tableSetDirectOverrides self options = .ok base)
    (hundef : options ≠ .undefined) (hnull : options ≠ .null) :
    ∃ minScale maxScale d, getProp options "minScale" = .ok minScale ∧
      getProp options "maxScale" = .ok maxScale ∧
      _setDirectOverrides env self options = .ok d ∧
      (maxScale = .undefined → getField d "maxScale" = getField base "maxScale") ∧
      (minScale = .undefined → getField d "minScale" = getField base "minScale") ∧
      (∀ k, k ≠ "minScale" → k ≠ "maxScale" → getField d k = getField base k) := by
  obtain ⟨minScale, hmin⟩ := getProp_defined options "minScale" hundef hnull
  obtain ⟨maxScale, hmax⟩ := getProp_defined options "maxScale" hundef hnull
  refine ⟨minScale, maxScale,
    merge env base [("minScale", minScale), ("maxScale", maxScale)], hmin, hmax, ?_, ?_, ?_, ?_⟩
  · simp [_setDirectOverrides, hbase, hmin, hmax, bind, Except.bind, pure, Except.pure]
  · intro h
    subst h
    simp only [merge, List.foldl]
    rw [getField_mergeEntry_undefined, getField_mergeEntry_other _ _ _ _ _ (by decide)]
  · intro h
    subst h
    simp only [merge, List.foldl]
    rw [getField_mergeEntry_other _ _ _ _ _ (by decide), getField_mergeEntry_undefined]
  · intro k h1 h2
    exact getField_merge_scales_other env base minScale maxScale k h1 h2

/-- C9, on a descriptor with both thresholds set and options that pass only `minScale`. -/
theorem scale_merge_keeps_existing_witness :
    ∃ minScale maxScale d, getProp (.obj [("minScale", jsNum 500)]) "minScale" = .ok minScale ∧
      getProp (.obj [("minScale", jsNum 500)]) "maxScale" = .ok maxScale ∧
      _setDirectOverrides demoEnv [("minScale", jsNum 0), ("maxScale", jsNum 0)]
        (.obj [("minScale", jsNum 500)]) = .ok d ∧
      (maxScale = .undefined →
        getField d "maxScale" = getField [("minScale", jsNum 0), ("maxScale", jsNum 0)] "maxScale") ∧
      (minScale = .undefined →
        getField d "minScale" = getField [("minScale", jsNum 0), ("maxScale", jsNum 0)] "minScale") ∧
      (∀ k, k ≠ "minScale" → k ≠ "maxScale" →
        getField d k = getField [("minScale", jsNum 0), ("maxScale", jsNum 0)] k) :=
  scale_merge_keeps_existing demoEnv [("minScale", jsNum 0), ("maxScale", jsNum 0)]
    [("minScale", jsNum 0), ("maxScale", jsNum 0)] (.obj [("minScale", jsNum 500)])
    rfl (by simp) (by simp)

/-! ## The extent field is written only when an extent was produced -/

/-- C10. `#_setExtent` throws what `getLayerExtent` throws, writes `extent` when
`getLayerExtent` produced a (truthy) value, and otherwise returns the descriptor exactly as
it was; and without an extent override, when no extent is produced (no features, a bound
that is not finite, or an exception of the envelope routine), it returns the descriptor
exactly as it was, so `extent` keeps the value it had before the call. -/
theorem setExtent_writes_only_produced_extent (env : Env) (self : Fields)
    (geojson options sr : JSVal)
    (hsr : env.getSpatialReference geojson options = .ok sr)
    (hext : getProp options "extent" = .ok .undefined)
    (hnone : NoExtentProduced env geojson) :
    (∃ log, getLayerExtent env geojson options = ⟨.ok .undefined, log⟩ ∧
      _setExtent env self geojson options = ⟨.ok self, log⟩) ∧
    (∀ (s : Fields) document opts,
      (∃ e log, getLayerExtent env document opts = ⟨.error e, log⟩ ∧
        _setExtent env s document opts = ⟨.error e, log⟩) ∨
      (∃ v log, getLayerExtent env document opts = ⟨.ok v, log⟩ ∧ toBoolean v = true ∧
        _setExtent env s document opts = ⟨.ok (setField s "extent" v), log⟩ ∧
        ∀ k, k ≠ "extent" → getField (setField s "extent" v) k = getField s k) ∨
      (∃ v log, getLayerExtent env document opts = ⟨.ok v, log⟩ ∧ toBoolean v = false ∧
        _setExtent env s document opts = ⟨.ok s, log⟩)) := by
  constructor
  · have hget := getLayerExtent_of_no_override env geojson options sr .undefined hsr hext rfl
    have hcalc : ∃ log, calculateExtentFromFeatures env geojson sr = ⟨.ok .undefined, log⟩ := by
      rcases hnone with ⟨f, hf, hfalsy⟩ | ⟨props, hf⟩ | ⟨features, props, hf, hne, hcase⟩
      · exact ⟨[], calculateExtent_of_falsy env geojson sr f hf hfalsy⟩
      · exact ⟨[], calculateExtent_of_empty env geojson sr props hf⟩
      · rcases hcase with ⟨e, items, bprops, henv, hbbox, hbad⟩ | ⟨e, hthrow, hu, hn⟩
        · exact ⟨_, calculateExtent_of_invalid env geojson sr e features items props bprops
            hf hne henv hbbox hbad⟩
        · obtain ⟨m, hm⟩ := getProp_defined e "message" hu hn
          exact ⟨_, calculateExtent_of_error env geojson sr e m features props hf hne
            (extentFromEnvelope_throws env geojson sr e hthrow) hm⟩
    obtain ⟨log, hlog⟩ := hcalc
    refine ⟨log, by rw [hget, hlog], ?_⟩
    have h := setExtent_of_ok env self geojson options .undefined log (by rw [hget, hlog])
    simpa [toBoolean] using h
  · intro s document opts
    cases hrun : getLayerExtent env document opts with
    | mk out log =>
      cases out with
      | error e => exact Or.inl ⟨e, log, rfl, setExtent_of_error env s document opts e log hrun⟩
      | ok v =>
        have h := setExtent_of_ok env s document opts v log hrun
        cases hv : toBoolean v with
        | true =>
          refine Or.inr (Or.inl ⟨v, log, rfl, hv, by simpa [hv] using h, ?_⟩)
          intro k hk
          exact getField_setField_other _ _ _ _ (Ne.symm hk)
        | false => exact Or.inr (Or.inr ⟨v, log, rfl, hv, by simpa [hv] using h⟩)

/-- C10, on a descriptor that holds the world extent and a document without a features
list. -/
theorem setExtent_writes_only_produced_extent_witness :
    (∃ log, getLayerExtent demoEnv (.obj [("type", .str "Point")]) (.obj []) =
        ⟨.ok .undefined, log⟩ ∧
      _setExtent demoEnv [("extent", worldExtent)] (.obj [("type", .str "Point")]) (.obj []) =
        ⟨.ok [("extent", worldExtent)], log⟩) ∧
    (∀ (s : Fields) document opts,
      (∃ e log, getLayerExtent demoEnv document opts = ⟨.error e, log⟩ ∧
        _setExtent demoEnv s document opts = ⟨.error e, log⟩) ∨
      (∃ v log, getLayerExtent demoEnv document opts = ⟨.ok v, log⟩ ∧ toBoolean v = true ∧
        _setExtent demoEnv s document opts = ⟨.ok (setField s "extent" v), log⟩ ∧
        ∀ k, k ≠ "extent" → getField (setField s "extent" v) k = getField s k) ∨
      (∃ v log, getLayerExtent demoEnv document opts = ⟨.ok v, log⟩ ∧ toBoolean v = false ∧
        _setExtent demoEnv s document opts = ⟨.ok s, log⟩)) :=
  setExtent_writes_only_produced_extent demoEnv [("extent", worldExtent)]
    (.obj [("type", .str "Point")]) (.obj []) wgs84 rfl rfl (Or.inl ⟨.undefined, rfl, rfl⟩)

/-! ## Labels and renderers on the descriptor -/

theorem getProp_drawingInfo_set (self dinfo : Fields) (key : String) (value : JSVal) :
    getProp (getField (setField self "drawingInfo" (.obj (setField dinfo key value)))
      "drawingInfo") key = .ok value := by
  rw [getField_setField_same, getProp_obj, getField_setField_same]

/-- On a descriptor with a `drawingInfo` object, `#_setRenderer` stores the renderer of the
options when it is truthy and the default for the geometry type otherwise. -/
theorem setRenderer_select (env : Env) (self : Fields) (renderer : JSVal) (dinfo : Fields)
    (hd : getField self "drawingInfo" = .obj dinfo) :
    _setRenderer env self renderer =
      .ok (setField self "drawingInfo" (.obj (setField dinfo "renderer"
        (if toBoolean renderer then renderer
          else defaultRenderer env (getField self "geometryType"))))) := by
  cases hr : toBoolean renderer with
  | true => simp [_setRenderer, hr, setDrawingInfo_obj self _ _ dinfo hd]
  | false =>
    cases hp : strictEqStr (getField self "geometryType") "esriGeometryPolygon" with
    | true => simp [_setRenderer, defaultRenderer, hr, hp, setDrawingInfo_obj self _ _ dinfo hd]
    | false =>
      cases hl : strictEqStr (getField self "geometryType") "esriGeometryPolyline" with
      | true =>
        simp [_setRenderer, defaultRenderer, hr, hp, hl, setDrawingInfo_obj self _ _ dinfo hd]
      | false =>
        simp [_setRenderer, defaultRenderer, hr, hp, hl, setDrawingInfo_obj self _ _ dinfo hd]

/-- C12. On a descriptor with a `drawingInfo` object, `#_setLabelingInfo` returns; when
`labelingInfo` is present (truthy) `drawingInfo.labelingInfo` becomes that value, and when it
is absent the descriptor is returned exactly as it was (on any descriptor), so
`drawingInfo.labelingInfo` keeps its structural default; `drawingInfo.renderer` and every
property other than `drawingInfo` read the same before and after. -/
theorem labelingInfo_written_only_when_present (self : Fields) (labelingInfo : JSVal)
    (dinfo : Fields) (hd : getField self "drawingInfo" = .obj dinfo) :
    ∃ self', _setLabelingInfo self labelingInfo = .ok self' ∧
      (toBoolean labelingInfo = true →
        getProp (getField self' "drawingInfo") "labelingInfo" = .ok labelingInfo) ∧
      (toBoolean labelingInfo = false → self' = self) ∧
      (∀ s, toBoolean labelingInfo = false → _setLabelingInfo s labelingInfo = .ok s) ∧
      getProp (getField self' "drawingInfo") "renderer" =
        getProp (getField self "drawingInfo") "renderer" ∧
      (∀ k, k ≠ "drawingInfo" → getField self' k = getField self k) := by
  have hfalse : ∀ s, toBoolean labelingInfo = false → _setLabelingInfo s labelingInfo = .ok s := by
    intro s h
    simp [_setLabelingInfo, h]
  cases hl : toBoolean labelingInfo with
  | false =>
    exact ⟨self, hfalse self hl, fun h => absurd h (by decide), fun _ => rfl,
      fun s _ => hfalse s hl, rfl, fun _ _ => rfl⟩
  | true =>
    refine ⟨setField self "drawingInfo" (.obj (setField dinfo "labelingInfo" labelingInfo)),
      ?_, fun _ => getProp_drawingInfo_set self dinfo _ _, fun h => absurd h (by decide),
      ?_, ?_, ?_⟩
    · simp [_setLabelingInfo, hl, setDrawingInfo_obj self _ _ dinfo hd]
    · intro s h
      exact absurd h (by decide)
    · rw [getField_setField_same, hd, getProp_obj, getProp_obj,
        getField_setField_other _ _ _ _ (by decide)]
    · intro k hk
      exact getField_setField_other _ _ _ _ (Ne.symm hk)

/-- C12, on a descriptor whose `drawingInfo` holds a renderer and a `null` default for the
labels, with a label specification supplied. -/
theorem labelingInfo_written_only_when_present_witness :
    ∃ self', _setLabelingInfo
        [("drawingInfo", .obj [("renderer", .str "r"), ("labelingInfo", .null)])]
        (jsArr [.str "label"]) = .ok self' ∧
      (toBoolean (jsArr [.str "label"]) = true →
        getProp (getField self' "drawingInfo") "labelingInfo" = .ok (jsArr [.str "label"])) ∧
      (toBoolean (jsArr [.str "label"]) = false →
        self' = [("drawingInfo", .obj [("renderer", .str "r"), ("labelingInfo", .null)])]) ∧
      (∀ s, toBoolean (jsArr [.str "label"]) = false →
        _setLabelingInfo s (jsArr [.str "label"]) = .ok s) ∧
      getProp (getField self' "drawingInfo") "renderer" =
        getProp (getField
          [("drawingInfo", JSVal.obj [("renderer", .str "r"), ("labelingInfo", .null)])]
          "drawingInfo") "renderer" ∧
      (∀ k, k ≠ "drawingInfo" → getField self' k = getField
        [("drawingInfo", JSVal.obj [("renderer", .str "r"), ("labelingInfo", .null)])] k) :=
  labelingInfo_written_only_when_present
    [("drawingInfo", .obj [("renderer", .str "r"), ("labelingInfo", .null)])]
    (jsArr [.str "label"]) [("renderer", .str "r"), ("labelingInfo", .null)] rfl

/-- C13. On a descriptor with a `drawingInfo` object, for every value of the renderer
option and every value of `geometryType`, `#_setRenderer` returns, and afterwards
`drawingInfo.renderer` holds one renderer: the renderer of the options when that is truthy,
else the default for the geometry type, which is the polygon, the line or the point
renderer.  Every property other than `drawingInfo` is left as it was. -/
theorem renderer_selection_is_total (env : Env) (self : Fields) (renderer geometryType : JSVal)
    (dinfo : Fields) (hd : getField self "drawingInfo" = .obj dinfo)
    (hg : getField self "geometryType" = geometryType) :
    ∃ self' r, _setRenderer env self renderer = .ok self' ∧
      getProp (getField self' "drawingInfo") "renderer" = .ok r ∧
      r = (if toBoolean renderer then renderer else defaultRenderer env geometryType) ∧
      (r = renderer ∨ r = env.polygonRenderer ∨ r = env.lineRenderer ∨ r = env.pointRenderer) ∧
      (∀ k, k ≠ "drawingInfo" → getField self' k = getField self k) := by
  refine ⟨_, _, setRenderer_select env self renderer dinfo hd,
    getProp_drawingInfo_set self dinfo _ _, by rw [hg], ?_, ?_⟩
  · cases toBoolean renderer with
    | true => exact Or.inl rfl
    | false =>
      simp only [Bool.false_eq_true, if_false, defaultRenderer]
      split
      · exact Or.inr (Or.inl rfl)
      · split
        · exact Or.inr (Or.inr (Or.inl rfl))
        · exact Or.inr (Or.inr (Or.inr rfl))
  · intro k hk
    exact getField_setField_other _ _ _ _ (Ne.symm hk)

/-- C13, on a descriptor whose geometry type is `undefined` and without a renderer option:
the point default is attached. -/
theorem renderer_selection_is_total_witness :
    ∃ self' r, _setRenderer demoEnv [("drawingInfo", .obj [])] .undefined = .ok self' ∧
      getProp (getField self' "drawingInfo") "renderer" = .ok r ∧
      r = (if toBoolean .undefined then .undefined else defaultRenderer demoEnv .undefined) ∧
      (r = .undefined ∨ r = demoEnv.polygonRenderer ∨ r = demoEnv.lineRenderer ∨
        r = demoEnv.pointRenderer) ∧
      (∀ k, k ≠ "drawingInfo" →
        getField self' k = getField [("drawingInfo", JSVal.obj [])] k) :=
  renderer_selection_is_total demoEnv [("drawingInfo", .obj [])] .undefined .undefined [] rfl rfl

/-! ## Numeric scale thresholds -/

/-- Merging a number stores it under the key. -/
theorem getField_mergeEntry_num (env : Env) (object : Fields) (key : String) (n : JSNum) :
    getField (mergeEntry env object key (.num n)) key = .num n := by
  simp only [mergeEntry, isObject, Bool.false_eq_true, if_false]
  exact getField_setField_same _ _ _

/-- C16. In `#_setDirectOverrides`, when the base-level overrides return and `options` is an
options bag, the method returns, and a `minScale` (respectively `maxScale`) of the options
that is a number is the descriptor's `minScale` (respectively `maxScale`) afterwards,
whatever value was there before the merge. -/
theorem numeric_scale_is_assigned (env : Env) (self base : Fields) (options : JSVal)
    (hbase : env.tableSetDirectOverrides self options = .ok base)
    (hundef : options ≠ .undefined) (hnull : options ≠ .null) :
    ∃ d, _setDirectOverrides env self options = .ok d ∧
      (∀ n, getProp options "minScale" = .ok (.num n) → getField d "minScale" = .num n) ∧
      (∀ n, getProp options "maxScale" = .ok (.num n) → getField d "maxScale" = .num n) := by
  obtain ⟨minScale, hmin⟩ := getProp_defined options "minScale" hundef hnull
  obtain ⟨maxScale, hmax⟩ := getProp_defined options "maxScale" hundef hnull
  refine ⟨merge env base [("minScale", minScale), ("maxScale", maxScale)], ?_, ?_, ?_⟩
  · simp [_setDirectOverrides, hbase, hmin, hmax, bind, Except.bind, pure, Except.pure]
  · intro n hn
    rw [hmin] at hn
    cases hn
    simp only [merge, List.foldl]
    rw [getField_mergeEntry_other _ _ _ _ _ (by decide), getField_mergeEntry_num]
  · intro n hn
    rw [hmax] at hn
    cases hn
    simp only [merge, List.foldl]
    rw [getField_mergeEntry_num]

/-- C16, on a descriptor with both thresholds at `0` and options that set both. -/
theorem numeric_scale_is_assigned_witness :
    ∃ d, _setDirectOverrides demoEnv [("minScale", jsNum 0), ("maxScale", jsNum 0)]
        (.obj [("minScale", jsNum 5000), ("maxScale", jsNum 100)]) = .ok d ∧
      (∀ n, getProp (.obj [("minScale", jsNum 5000), ("maxScale", jsNum 100)]) "minScale" =
        .ok (.num n) → getField d "minScale" = .num n) ∧
      (∀ n, getProp (.obj [("minScale", jsNum 5000), ("maxScale", jsNum 100)]) "maxScale" =
        .ok (.num n) → getField d "maxScale" = .num n) :=
  numeric_scale_is_assigned demoEnv [("minScale", jsNum 0), ("maxScale", jsNum 0)]
    [("minScale", jsNum 0), ("maxScale", jsNum 0)]
    (.obj [("minScale", jsNum 5000), ("maxScale", jsNum 100)]) rfl (by simp) (by simp)

/-! ## Documents without a features list -/

/-- C17. For a document that has no features list (reading `features` gives `undefined`),
`calculateExtentFromFeatures` returns nothing and emits nothing, whatever the envelope
routine is; with no extent override and a resolved spatial reference the same holds of
`getLayerExtent`, and `#_setExtent` returns the descriptor as it was: no extent is derived. -/
theorem no_features_list_gives_no_extent (env : Env) (geojson : JSVal)
    (hfeat : getProp geojson "features" = .ok .undefined) :
    (∀ f sr, calculateExtentFromFeatures (env.withEnvelope f) geojson sr =
      ⟨.ok .undefined, []⟩) ∧
    (∀ f options sr (self : Fields), env.getSpatialReference geojson options = .ok sr →
      getProp options "extent" = .ok .undefined →
      getLayerExtent (env.withEnvelope f) geojson options = ⟨.ok .undefined, []⟩ ∧
      _setExtent (env.withEnvelope f) self geojson options = ⟨.ok self, []⟩) := by
  have h1 : ∀ f sr, calculateExtentFromFeatures (env.withEnvelope f) geojson sr =
      ⟨.ok .undefined, []⟩ :=
    fun f sr => calculateExtent_of_falsy (env.withEnvelope f) geojson sr .undefined hfeat rfl
  refine ⟨h1, ?_⟩
  intro f options sr self hsr hext
  have h2 : getLayerExtent (env.withEnvelope f) geojson options = ⟨.ok .undefined, []⟩ := by
    rw [getLayerExtent_of_no_override (env.withEnvelope f) geojson options sr .undefined hsr
      hext rfl, h1]
  refine ⟨h2, ?_⟩
  have h3 := setExtent_of_ok (env.withEnvelope f) self geojson options .undefined [] h2
  simpa [toBoolean] using h3

/-- C17, on a single point feature at `[1, 2]`: its envelope has the finite bounding box
`[1, 2, 1, 2]`, yet no extent is derived. -/
theorem no_features_list_gives_no_extent_witness :
    ((envelopeOf (pointFeature (.fin 1) (.fin 2))) >>= (getProp · "bbox")) =
      .ok (jsArr [jsNum 1, jsNum 2, jsNum 1, jsNum 2]) ∧
    (∀ f sr, calculateExtentFromFeatures (demoEnv.withEnvelope f)
      (pointFeature (.fin 1) (.fin 2)) sr = ⟨.ok .undefined, []⟩) ∧
    (∀ f options sr (self : Fields),
      demoEnv.getSpatialReference (pointFeature (.fin 1) (.fin 2)) options = .ok sr →
      getProp options "extent" = .ok .undefined →
      getLayerExtent (demoEnv.withEnvelope f) (pointFeature (.fin 1) (.fin 2)) options =
        ⟨.ok .undefined, []⟩ ∧
      _setExtent (demoEnv.withEnvelope f) self (pointFeature (.fin 1) (.fin 2)) options =
        ⟨.ok self, []⟩) :=
  ⟨rfl, no_features_list_gives_no_extent demoEnv (pointFeature (.fin 1) (.fin 2)) rfl⟩

/-! ## Falsy option values -/

/-- C18. A renderer option that is falsy (`null`, `false`, `0`, the empty string, ...)
makes `#_setRenderer` do exactly what it does without a renderer option, which on a
descriptor with a `drawingInfo` object is to attach the default renderer for the geometry
type; and an `extent` option that is falsy makes `getLayerExtent` the feature scan
`calculateExtentFromFeatures` at the resolved spatial reference. -/
theorem falsy_options_count_as_absent (env : Env) (self : Fields)
    (geojson options renderer extent sr : JSVal)
    (hr : toBoolean renderer = false)
    (hsr : env.getSpatialReference geojson options = .ok sr)
    (hext : getProp options "extent" = .ok extent) (hx : toBoolean extent = false) :
    _setRenderer env self renderer = _setRenderer env self .undefined ∧
    (∀ dinfo, getField self "drawingInfo" = .obj dinfo →
      _setRenderer env self renderer =
        .ok (setField self "drawingInfo" (.obj (setField dinfo "renderer"
          (defaultRenderer env (getField self "geometryType")))))) ∧
    getLayerExtent env geojson options = calculateExtentFromFeatures env geojson sr ∧
    (toBoolean .null = false ∧ toBoolean (.bool false) = false ∧
      toBoolean (jsNum 0) = false ∧ toBoolean (.str "") = false) := by
  refine ⟨?_, ?_, getLayerExtent_of_no_override env geojson options sr extent hsr hext hx, ?_⟩
  · have hu : toBoolean .undefined = false := rfl
    simp only [_setRenderer, hr, hu, Bool.false_eq_true, if_false]
  · intro dinfo hd
    rw [setRenderer_select env self renderer dinfo hd]
    simp [hr]
  · simp [toBoolean, jsNum]

/-- C18, on a `null` renderer and an `extent` of `0` for the two-point document: the
polyline descriptor gets the line renderer, and the extent is the one scanned from the
features. -/
theorem falsy_options_count_as_absent_witness :
    (_setRenderer demoEnv
        [("drawingInfo", .obj []), ("geometryType", .str "esriGeometryPolyline")] .null =
      _setRenderer demoEnv
        [("drawingInfo", .obj []), ("geometryType", .str "esriGeometryPolyline")] .undefined ∧
    (∀ dinfo, getField [("drawingInfo", JSVal.obj []),
        ("geometryType", .str "esriGeometryPolyline")] "drawingInfo" = .obj dinfo →
      _setRenderer demoEnv
        [("drawingInfo", .obj []), ("geometryType", .str "esriGeometryPolyline")] .null =
        .ok (setField [("drawingInfo", .obj []), ("geometryType", .str "esriGeometryPolyline")]
          "drawingInfo" (.obj (setField dinfo "renderer"
            (defaultRenderer demoEnv (getField [("drawingInfo", JSVal.obj []),
              ("geometryType", .str "esriGeometryPolyline")] "geometryType")))))) ∧
    getLayerExtent demoEnv twoPoints (.obj [("extent", jsNum 0)]) =
      calculateExtentFromFeatures demoEnv twoPoints wgs84 ∧
    (toBoolean .null = false ∧ toBoolean (.bool false) = false ∧
      toBoolean (jsNum 0) = false ∧ toBoolean (.str "") = false)) ∧
    defaultRenderer demoEnv (.str "esriGeometryPolyline") = demoEnv.lineRenderer ∧
    calculateExtentFromFeatures demoEnv twoPoints wgs84 =
      ⟨.ok (extentObject (jsNum 1) (jsNum 2) (jsNum 3) (jsNum 4) wgs84), []⟩ :=
  ⟨falsy_options_count_as_absent demoEnv
      [("drawingInfo", .obj []), ("geometryType", .str "esriGeometryPolyline")]
      twoPoints (.obj [("extent", jsNum 0)]) .null (jsNum 0) wgs84 rfl rfl rfl
      (by simp [toBoolean, jsNum]),
    rfl, rfl⟩

/-! ## The whole of `mixinOverrides` -/

theorem setLabelingInfo_select (self : Fields) (labelingInfo : JSVal) (dinfo : Fields)
    (hd : getField self "drawingInfo" = .obj dinfo) :
    _setLabelingInfo self labelingInfo =
      .ok (if toBoolean labelingInfo
        then setField self "drawingInfo" (.obj (setField dinfo "labelingInfo" labelingInfo))
        else self) := by
  cases hl : toBoolean labelingInfo with
  | true => simp [_setLabelingInfo, hl, setDrawingInfo_obj self _ _ dinfo hd]
  | false => simp [_setLabelingInfo, hl]

/-- The steps of `mixinOverrides`, when the collaborators return and the base-level build
leaves a `drawingInfo` object: the method returns the merge of the scale thresholds into
what the base-level direct overrides make of the descriptor `s6`, and `s6` differs from the
base-level descriptor in `geometryType`, `supportsCoordinatesQuantization`, `extent` and
`drawingInfo` only, each as this module computes it. -/
theorem mixinOverrides_steps (env : Env) (self : Fields) (geojson optionsArg : JSVal)
    (fields base dinfo : Fields) (g v : JSVal) (log : List String)
    (hopt : orEmptyObject optionsArg = .obj fields)
    (hcap : getField fields "capabilities" ≠ .null)
    (hmix : env.tableMixinOverrides self geojson (.obj fields) = .ok base)
    (hdinfo : getField base "drawingInfo" = .obj dinfo)
    (hg : env.getGeometryTypeFromGeojson (spread geojson (.obj fields)) = .ok g)
    (hext : getLayerExtent env geojson (extentOptions (getField fields "inputCrs")
      (getField fields "sourceSR") (getField fields "extent")) = ⟨.ok v, log⟩)
    (hdirect : ∀ s, ∃ s', env.tableSetDirectOverrides s (.obj fields) = .ok s') :
    ∃ q s6 s7,
      getProp (orEmptyObject (getField fields "capabilities")) "quantization" = .ok q ∧
      env.tableSetDirectOverrides s6 (.obj fields) = .ok s7 ∧
      mixinOverrides env self geojson optionsArg =
        ⟨.ok (merge env s7 [("minScale", getField fields "minScale"),
          ("maxScale", getField fields "maxScale")]), log⟩ ∧
      getField s6 "geometryType" = g ∧
      getField s6 "supportsCoordinatesQuantization" = .bool (toBoolean q) ∧
      getField s6 "extent" = (if toBoolean v then v else getField base "extent") ∧
      getProp (getField s6 "drawingInfo") "renderer" =
        .ok (if toBoolean (getField fields "renderer") then getField fields "renderer"
          else defaultRenderer env g) ∧
      getProp (getField s6 "drawingInfo") "labelingInfo" =
        .ok (if toBoolean (getField fields "labelingInfo") then getField fields "labelingInfo"
          else getField dinfo "labelingInfo") ∧
      (∀ k, k ≠ "geometryType" → k ≠ "supportsCoordinatesQuantization" → k ≠ "extent" →
        k ≠ "drawingInfo" → getField s6 k = getField base k) := by
  obtain ⟨q, hq⟩ := getProp_defined (orEmptyObject (getField fields "capabilities"))
    "quantization" (orEmptyObject_ne_undefined _) (orEmptyObject_ne_null _ hcap)
  -- the instance after each step
  generalize hs3 : setField (setField base "geometryType" g) "supportsCoordinatesQuantization"
    (.bool (toBoolean q)) = s3
  have h3g : getField s3 "geometryType" = g := by
    rw [← hs3, getField_setField_other _ _ _ _ (by decide), getField_setField_same]
  have h3q : getField s3 "supportsCoordinatesQuantization" = .bool (toBoolean q) := by
    rw [← hs3, getField_setField_same]
  have h3o : ∀ k, k ≠ "geometryType" → k ≠ "supportsCoordinatesQuantization" →
      getField s3 k = getField base k := by
    intro k h1 h2
    rw [← hs3, getField_setField_other _ _ _ _ (Ne.symm h2),
      getField_setField_other _ _ _ _ (Ne.symm h1)]
  generalize hs4 : (if toBoolean v then setField s3 "extent" v else s3) = s4
  have h4e : getField s4 "extent" = if toBoolean v then v else getField base "extent" := by
    rw [← hs4]
    cases toBoolean v with
    | true => simp only [if_true]; exact getField_setField_same _ _ _
    | false =>
      simp only [Bool.false_eq_true, if_false]
      exact h3o "extent" (by decide) (by decide)
  have h4o : ∀ k, k ≠ "extent" → getField s4 k = getField s3 k := by
    intro k hk
    rw [← hs4]
    cases toBoolean v with
    | true => simp only [if_true]; exact getField_setField_other _ _ _ _ (Ne.symm hk)
    | false => simp only [Bool.false_eq_true, if_false]
  have h4d : getField s4 "drawingInfo" = .obj dinfo := by
    rw [h4o _ (by decide), h3o _ (by decide) (by decide), hdinfo]
  have h4g : getField s4 "geometryType" = g := by
    rw [h4o _ (by decide), h3g]
  have hr := setRenderer_select env s4 (getField fields "renderer") dinfo h4d
  rw [h4g] at hr
  generalize hrsel : (if toBoolean (getField fields "renderer") then getField fields "renderer"
    else defaultRenderer env g) = r at hr
  generalize hs5 : setField s4 "drawingInfo" (.obj (setField dinfo "renderer" r)) = s5 at hr
  have h5d : getField s5 "drawingInfo" = .obj (setField dinfo "renderer" r) := by
    rw [← hs5, getField_setField_same]
  have h5o : ∀ k, k ≠ "drawingInfo" → getField s5 k = getField s4 k := by
    intro k hk
    rw [← hs5, getField_setField_other _ _ _ _ (Ne.symm hk)]
  have hl := setLabelingInfo_select s5 (getField fields "labelingInfo") _ h5d
  generalize hs6 : (if toBoolean (getField fields "labelingInfo")
    then setField s5 "drawingInfo" (.obj (setField (setField dinfo "renderer" r) "labelingInfo"
      (getField fields "labelingInfo")))
    else s5) = s6 at hl
  have h6o : ∀ k, k ≠ "drawingInfo" → getField s6 k = getField s5 k := by
    intro k hk
    rw [← hs6]
    cases toBoolean (getField fields "labelingInfo") with
    | true => simp only [if_true]; exact getField_setField_other _ _ _ _ (Ne.symm hk)
    | false => simp only [Bool.false_eq_true, if_false]
  have h6r : getProp (getField s6 "drawingInfo") "renderer" = .ok r := by
    rw [← hs6]
    cases toBoolean (getField fields "labelingInfo") with
    | true =>
      simp only [if_true]
      rw [getField_setField_same, getProp_obj, getField_setField_other _ _ _ _ (by decide),
        getField_setField_same]
    | false =>
      simp only [Bool.false_eq_true, if_false]
      rw [h5d, getProp_obj, getField_setField_same]
  have h6l : getProp (getField s6 "drawingInfo") "labelingInfo" =
      .ok (if toBoolean (getField fields "labelingInfo") then getField fields "labelingInfo"
        else getField dinfo "labelingInfo") := by
    rw [← hs6]
    cases toBoolean (getField fields "labelingInfo") with
    | true =>
      simp only [if_true]
      rw [getField_setField_same, getProp_obj, getField_setField_same]
    | false =>
      simp only [Bool.false_eq_true, if_false]
      rw [h5d, getProp_obj, getField_setField_other _ _ _ _ (by decide)]
  obtain ⟨s7, hs7⟩ := hdirect s6
  refine ⟨q, s6, s7, hq, hs7, ?_, ?_, ?_, ?_, h6r, h6l, ?_⟩
  · have hse := setExtent_of_ok env s3 geojson _ v log hext
    rw [hs4] at hse
    have hdo : _setDirectOverrides env s6 (.obj fields) =
        .ok (merge env s7 [("minScale", getField fields "minScale"),
          ("maxScale", getField fields "maxScale")]) := by
      simp [_setDirectOverrides, hs7, getProp_obj, bind, Except.bind, pure, Except.pure]
    simp only [mixinOverrides, hopt, hmix, Run.bind_eq, Run.call_andThen_ok, getProp_obj,
      Except.map, hg, hq, Run.pure_eq]
    rw [hs3, hse]
    simp [Run.andThen, hr, hl, hdo, Run.call, Run.ret]
  · rw [h6o _ (by decide), h5o _ (by decide), h4g]
  · rw [h6o _ (by decide), h5o _ (by decide), h4o _ (by decide), h3q]
  · rw [h6o _ (by decide), h5o _ (by decide), h4e]
  · intro k h1 h2 h3 h4
    rw [h6o _ h4, h5o _ h4, h4o _ h3, h3o _ h1 h2]

/-! ## The merged view of document and options -/

theorem hasField_of_not_mem (fields : Fields) (k : String)
    (h : k ∉ fields.map Prod.fst) : hasField fields k = false := by
  induction fields with
  | nil => rfl
  | cons kv rest ih =>
    obtain ⟨k', v⟩ := kv
    simp only [List.map_cons, List.mem_cons, not_or] at h
    have hk : ¬ k' = k := fun e => h.1 e.symm
    simp only [hasField, hk, if_false]
    exact ih h.2

/-- Copying an object onto another: a key of the source reads as in the source, every other
key as in the target. -/
theorem getField_assignAll (target src : Fields) (k : String)
    (hnd : (src.map Prod.fst).Nodup) :
    getField (assignAll target src) k =
      if hasField src k then getField src k else getField target k := by
  induction src generalizing target with
  | nil => simp [assignAll, hasField]
  | cons kv rest ih =>
    obtain ⟨k', v⟩ := kv
    simp only [List.map_cons, List.nodup_cons] at hnd
    have hstep : assignAll target ((k', v) :: rest) = assignAll (setField target k' v) rest := by
      simp [assignAll]
    rw [hstep, ih _ hnd.2]
    by_cases hk : k' = k
    · subst hk
      rw [hasField_of_not_mem rest k' hnd.1]
      simp [hasField, getField, getField_setField_same]
    · simp only [hasField, getField, hk, if_false]
      rw [getField_setField_other _ _ _ _ hk]

/-- In the object spread `{ ...geojson, ...options }` a key of the options reads as in the
options, and every other key as in the document. -/
theorem getProp_spread (geojson : JSVal) (fields : Fields) (k : String)
    (hnd : (fields.map Prod.fst).Nodup)
    (hndDoc : ((ownEntries geojson).map Prod.fst).Nodup) :
    getProp (spread geojson (.obj fields)) k =
      .ok (if hasField fields k then getField fields k else getField (ownEntries geojson) k) := by
  have hown : ownEntries (.obj fields) = fields := rfl
  simp only [spread, getProp_obj, hown]
  rw [getField_assignAll _ _ _ hnd, getField_assignAll _ _ _ hndDoc]
  cases hd : hasField (ownEntries geojson) k with
  | true => simp
  | false => simp [getField_of_not_hasField _ _ hd, getField]

/-! ## When the extent step returns -/

theorem getProp_error (v : JSVal) (k : String) (e : JSVal) (h : getProp v k = .error e) :
    ∃ message, e = typeError message := by
  cases v with
  | undefined => exact ⟨_, by simpa [getProp] using h.symm⟩
  | null => exact ⟨_, by simpa [getProp] using h.symm⟩
  | bool b => simp [getProp] at h
  | num n => simp [getProp] at h
  | str s =>
    have := getProp_defined (.str s) k (by simp) (by simp)
    obtain ⟨x, hx⟩ := this
    rw [hx] at h
    cases h
  | arr items props =>
    have := getProp_defined (.arr items props) k (by simp) (by simp)
    obtain ⟨x, hx⟩ := this
    rw [hx] at h
    cases h
  | obj fields => simp [getProp] at h

theorem checkCoordinates_error_inv (env : Env) (items : List JSVal) (e : JSVal)
    (h : checkCoordinates env items = .error e) :
    e = mkError "Error" "Feature does not contain valid geometry" := by
  induction items with
  | nil => simp [checkCoordinates] at h
  | cons x rest ih =>
    by_cases hx : isFiniteJS env x = true
    · simp only [checkCoordinates, hx] at h
      exact ih (by simpa using h)
    · simp [checkCoordinates, hx] at h
      exact h.symm

/-- What the `try` block throws, when it is not what the envelope routine threw, is an error
object. -/
theorem extentFromEnvelope_error_inv (env : Env) (geojson sr e : JSVal)
    (h : extentFromEnvelope env geojson sr = .error e) :
    env.envelope geojson = .error e ∨ ∃ name message, e = mkError name message := by
  unfold extentFromEnvelope at h
  cases henv : env.envelope geojson with
  | error e0 =>
    simp [henv, bind, Except.bind] at h
    exact Or.inl (by rw [h])
  | ok ev =>
    right
    cases hbbox : getProp ev "bbox" with
    | error e1 =>
      simp [henv, hbbox, bind, Except.bind] at h
      obtain ⟨m, hm⟩ := getProp_error ev "bbox" e1 hbbox
      exact ⟨"TypeError", m, by rw [← h, hm]; rfl⟩
    | ok bbox =>
      cases bbox with
      | arr items props =>
        cases hchk : checkCoordinates env items with
        | error e2 =>
          simp [henv, hbbox, bind, Except.bind, forEachCoordinate, hchk] at h
          exact ⟨_, _, by rw [← h]; exact checkCoordinates_error_inv env items e2 hchk⟩
        | ok u =>
          simp [henv, hbbox, bind, Except.bind, forEachCoordinate, hchk, pure, Except.pure] at h
      | undefined =>
        simp [henv, hbbox, bind, Except.bind, forEachCoordinate] at h
        exact ⟨_, _, h.symm⟩
      | null =>
        simp [henv, hbbox, bind, Except.bind, forEachCoordinate] at h
        exact ⟨_, _, h.symm⟩
      | bool b =>
        simp [henv, hbbox, bind, Except.bind, forEachCoordinate] at h
        exact ⟨_, _, h.symm⟩
      | num n =>
        simp [henv, hbbox, bind, Except.bind, forEachCoordinate] at h
        exact ⟨_, _, h.symm⟩
      | str s =>
        simp [henv, hbbox, bind, Except.bind, forEachCoordinate] at h
        exact ⟨_, _, h.symm⟩
      | obj fields =>
        simp [henv, hbbox, bind, Except.bind, forEachCoordinate] at h
        exact ⟨_, _, h.symm⟩

/-- On a document that is not `null` or `undefined`, with an envelope routine that never
throws `null` or `undefined`, `calculateExtentFromFeatures` returns. -/
theorem calculateExtent_returns (env : Env) (geojson sr : JSVal)
    (hundef : geojson ≠ .undefined) (hnull : geojson ≠ .null)
    (henv : ∀ e, env.envelope geojson = .error e → e ≠ .undefined ∧ e ≠ .null) :
    ∃ v log, calculateExtentFromFeatures env geojson sr = ⟨.ok v, log⟩ := by
  obtain ⟨f, hfeat⟩ := getProp_defined geojson "features" hundef hnull
  cases hf : toBoolean f with
  | false => exact ⟨_, _, calculateExtent_of_falsy env geojson sr f hfeat hf⟩
  | true =>
    have hfu : f ≠ .undefined := by
      intro h
      rw [h] at hf
      exact absurd hf (by decide)
    have hfn : f ≠ .null := by
      intro h
      rw [h] at hf
      exact absurd hf (by decide)
    obtain ⟨len, hlen⟩ := getProp_defined f "length" hfu hfn
    cases hz : strictEqNum len 0 with
    | true =>
      exact ⟨.undefined, [], by
        simp [calculateExtentFromFeatures, hfeat, hf, hlen, hz, Run.andThen, Run.call, Run.ret]⟩
    | false =>
      cases hbody : extentFromEnvelope env geojson sr with
      | ok w =>
        exact ⟨w, [], by
          simp [calculateExtentFromFeatures, hfeat, hf, hlen, hz, hbody, Run.andThen, Run.call,
            Run.ret, Run.tryCatch]⟩
      | error e =>
        have hread : ∃ m, getProp e "message" = .ok m := by
          rcases extentFromEnvelope_error_inv env geojson sr e hbody with h | ⟨n, m, h⟩
          · exact getProp_defined e "message" (henv e h).1 (henv e h).2
          · exact ⟨.str m, by rw [h]; simp [mkError, getProp, getField]⟩
        obtain ⟨m, hm⟩ := hread
        exact ⟨.undefined, ["Could not calculate extent from data: " ++ env.toDisplayString m], by
          simp [calculateExtentFromFeatures, hfeat, hf, hlen, hz, hbody, hm, Run.andThen,
            Run.call, Run.ret, Run.tryCatch, Run.debug]⟩

/-- When the resolver and (for an extent override) the normalizer return, the document is
not `null` or `undefined` and the envelope routine never throws `null` or `undefined`,
`getLayerExtent` returns. -/
theorem getLayerExtent_returns (env : Env) (geojson options sr extent : JSVal)
    (hsr : env.getSpatialReference geojson options = .ok sr)
    (hext : getProp options "extent" = .ok extent)
    (hnorm : toBoolean extent = true → ∃ x, env.normalizeExtent extent sr = .ok x)
    (hundef : geojson ≠ .undefined) (hnull : geojson ≠ .null)
    (henv : ∀ e, env.envelope geojson = .error e → e ≠ .undefined ∧ e ≠ .null) :
    ∃ v log, getLayerExtent env geojson options = ⟨.ok v, log⟩ := by
  cases hx : toBoolean extent with
  | true =>
    obtain ⟨x, hxn⟩ := hnorm hx
    exact ⟨x, [], by simp [getLayerExtent, hsr, hext, hx, hxn, Run.call, Run.andThen]⟩
  | false =>
    rw [getLayerExtent_of_no_override env geojson options sr extent hsr hext hx]
    exact calculateExtent_returns env geojson sr hundef hnull henv

/-! ## The quantization flag -/

/-- C11. For an options bag whose `capabilities` is not `null`, when the collaborators
return and the base-level direct overrides leave the flag alone, `mixinOverrides` returns a
descriptor whose `supportsCoordinatesQuantization` is the boolean coercion of
`options.capabilities.quantization` (read from `{}` when `capabilities` is absent): it is
`false` when `capabilities` is absent and when its `quantization` entry is absent. -/
theorem quantization_flag_is_boolean_coercion (env : Env) (self : Fields)
    (geojson optionsArg : JSVal) (fields base dinfo : Fields) (g v : JSVal) (log : List String)
    (hopt : orEmptyObject optionsArg = .obj fields)
    (hcap : getField fields "capabilities" ≠ .null)
    (hmix : env.tableMixinOverrides self geojson (.obj fields) = .ok base)
    (hdinfo : getField base "drawingInfo" = .obj dinfo)
    (hg : env.getGeometryTypeFromGeojson (spread geojson (.obj fields)) = .ok g)
    (hext : getLayerExtent env geojson (extentOptions (getField fields "inputCrs")
      (getField fields "sourceSR") (getField fields "extent")) = ⟨.ok v, log⟩)
    (hdirect : ∀ s, ∃ s', env.tableSetDirectOverrides s (.obj fields) = .ok s' ∧
      getField s' "supportsCoordinatesQuantization" =
        getField s "supportsCoordinatesQuantization") :
    ∃ q d, getProp (orEmptyObject (getField fields "capabilities")) "quantization" = .ok q ∧
      mixinOverrides env self geojson optionsArg = ⟨.ok d, log⟩ ∧
      getField d "supportsCoordinatesQuantization" = .bool (toBoolean q) ∧
      (getField fields "capabilities" = .undefined →
        getField d "supportsCoordinatesQuantization" = .bool false) ∧
      (∀ caps, getField fields "capabilities" = .obj caps →
        q = getField caps "quantization" ∧
        (getField caps "quantization" = .undefined →
          getField d "supportsCoordinatesQuantization" = .bool false)) := by
  obtain ⟨q, s6, s7, hq, hs7, hrun, _, hflag, _, _, _, _⟩ :=
    mixinOverrides_steps env self geojson optionsArg fields base dinfo g v log hopt hcap hmix
      hdinfo hg hext (fun s => (hdirect s).imp fun _ h => h.1)
  obtain ⟨s7', hs7', hkeep⟩ := hdirect s6
  rw [hs7] at hs7'
  cases hs7'
  have hd : getField (merge env s7 [("minScale", getField fields "minScale"),
      ("maxScale", getField fields "maxScale")]) "supportsCoordinatesQuantization" =
      .bool (toBoolean q) := by
    rw [getField_merge_scales_other _ _ _ _ _ (by decide) (by decide), hkeep, hflag]
  refine ⟨q, _, hq, hrun, hd, ?_, ?_⟩
  · intro habsent
    rw [habsent] at hq
    have hq' : q = .undefined := by
      simp [orEmptyObject, getProp, getField] at hq
      exact hq.symm
    rw [hd, hq']
    rfl
  · intro caps hcaps
    rw [hcaps] at hq
    have hq' : q = getField caps "quantization" := by
      simp [orEmptyObject, getProp] at hq
      exact hq.symm
    refine ⟨hq', ?_⟩
    intro habsent
    rw [hd, hq', habsent]
    rfl

/-- C11, on options with `capabilities: { quantization: true }` for the two-point document:
the flag is `true`. -/
theorem quantization_flag_is_boolean_coercion_witness :
    ∃ d, mixinOverrides demoEnv (construct demoEnv) twoPoints quantizedOptions = ⟨.ok d, []⟩ ∧
      getField d "supportsCoordinatesQuantization" = .bool true := by
  obtain ⟨q, d, hq, hrun, hflag, _, hcaps⟩ :=
    quantization_flag_is_boolean_coercion demoEnv (construct demoEnv) twoPoints quantizedOptions
      [("capabilities", .obj [("quantization", .bool true)])] (construct demoEnv) [] .undefined
      (extentObject (jsNum 1) (jsNum 2) (jsNum 3) (jsNum 4) wgs84) []
      rfl (by simp [getField]) rfl rfl rfl rfl (fun s => ⟨s, rfl, rfl⟩)
  have hq' := (hcaps [("quantization", .bool true)] rfl).1
  refine ⟨d, hrun, ?_⟩
  rw [hflag, hq']
  rfl

/-! ## Absent options -/

/-- C14. For every options bag, whichever of its fields are absent, and for a wholly absent
options argument, `mixinOverrides` returns a descriptor when the collaborators return
normally (on a document, with a `drawingInfo` object from the base-level build, and
`capabilities` not `null`).  Each absent field is defaulted: without `renderer` the default
renderer for the geometry type is attached, without `labelingInfo` the base-level
`drawingInfo.labelingInfo` stays, without `capabilities` the quantization flag is `false`,
without `extent` the extent is scanned from the features, and without `minScale` or
`maxScale` the value the base-level direct overrides left stays. -/
theorem absent_options_are_defaulted (env : Env) (self : Fields) (geojson optionsArg : JSVal)
    (fields base dinfo : Fields) (g sr : JSVal)
    (hopt : orEmptyObject optionsArg = .obj fields)
    (hcap : getField fields "capabilities" ≠ .null)
    (hundef : geojson ≠ .undefined) (hnull : geojson ≠ .null)
    (hmix : env.tableMixinOverrides self geojson (.obj fields) = .ok base)
    (hdinfo : getField base "drawingInfo" = .obj dinfo)
    (hg : env.getGeometryTypeFromGeojson (spread geojson (.obj fields)) = .ok g)
    (hsr : env.getSpatialReference geojson (extentOptions (getField fields "inputCrs")
      (getField fields "sourceSR") (getField fields "extent")) = .ok sr)
    (hnorm : toBoolean (getField fields "extent") = true →
      ∃ x, env.normalizeExtent (getField fields "extent") sr = .ok x)
    (henv : ∃ e, env.envelope geojson = .ok e)
    (hdirect : ∀ s, ∃ s', env.tableSetDirectOverrides s (.obj fields) = .ok s') :
    ∃ d log s6 s7, mixinOverrides env self geojson optionsArg = ⟨.ok d, log⟩ ∧
      env.tableSetDirectOverrides s6 (.obj fields) = .ok s7 ∧
      d = merge env s7 [("minScale", getField fields "minScale"),
        ("maxScale", getField fields "maxScale")] ∧
      (getField fields "renderer" = .undefined →
        getProp (getField s6 "drawingInfo") "renderer" = .ok (defaultRenderer env g)) ∧
      (getField fields "labelingInfo" = .undefined →
        getProp (getField s6 "drawingInfo") "labelingInfo" =
          .ok (getField dinfo "labelingInfo")) ∧
      (getField fields "capabilities" = .undefined →
        getField s6 "supportsCoordinatesQuantization" = .bool false) ∧
      (getField fields "extent" = .undefined →
        getLayerExtent env geojson (extentOptions (getField fields "inputCrs")
          (getField fields "sourceSR") (getField fields "extent")) =
          calculateExtentFromFeatures env geojson sr) ∧
      (getField fields "minScale" = .undefined →
        getField d "minScale" = getField s7 "minScale") ∧
      (getField fields "maxScale" = .undefined →
        getField d "maxScale" = getField s7 "maxScale") := by
  have hextProp : getProp (extentOptions (getField fields "inputCrs")
      (getField fields "sourceSR") (getField fields "extent")) "extent" =
      .ok (getField fields "extent") := by
    simp [extentOptions, getProp, getField]
  obtain ⟨v, log, hext⟩ := getLayerExtent_returns env geojson _ sr (getField fields "extent")
    hsr hextProp hnorm hundef hnull (by
      intro e he
      obtain ⟨e0, he0⟩ := henv
      rw [he0] at he
      cases he)
  obtain ⟨q, s6, s7, hq, hs7, hrun, _, hflag, _, hrend, hlabel, _⟩ :=
    mixinOverrides_steps env self geojson optionsArg fields base dinfo g v log hopt hcap hmix
      hdinfo hg hext hdirect
  refine ⟨_, log, s6, s7, hrun, hs7, rfl, ?_, ?_, ?_, ?_, ?_, ?_⟩
  · intro h
    rw [hrend, h]
    rfl
  · intro h
    rw [hlabel, h]
    rfl
  · intro h
    rw [h] at hq
    have hq' : q = .undefined := by
      simp [orEmptyObject, getProp, getField] at hq
      exact hq.symm
    rw [hflag, hq']
    rfl
  · intro h
    exact getLayerExtent_of_no_override env geojson _ sr (getField fields "extent") hsr hextProp
      (by rw [h]; rfl)
  · intro h
    simp only [merge, List.foldl]
    rw [getField_mergeEntry_other _ _ _ _ _ (by decide), h, getField_mergeEntry_undefined]
  · intro h
    simp only [merge, List.foldl]
    rw [h, getField_mergeEntry_undefined, getField_mergeEntry_other _ _ _ _ _ (by decide)]

/-- C14, on the two-point document with no options argument at all: the build returns, the
point default is attached, the flag is `false` and the extent is the scanned one. -/
theorem absent_options_are_defaulted_witness :
    ∃ d, mixinOverrides demoEnv (construct demoEnv) twoPoints .undefined = ⟨.ok d, []⟩ ∧
      getProp (getField d "drawingInfo") "renderer" = .ok demoEnv.pointRenderer ∧
      getField d "supportsCoordinatesQuantization" = .bool false ∧
      getField d "extent" = extentObject (jsNum 1) (jsNum 2) (jsNum 3) (jsNum 4) wgs84 := by
  obtain ⟨d, log, s6, s7, hrun, _, _, _, _, _, _, _, _⟩ :=
    absent_options_are_defaulted demoEnv (construct demoEnv) twoPoints .undefined
      [] (construct demoEnv) [] .undefined wgs84
      rfl (by simp [getField]) (by simp [twoPoints, featureCollection])
      (by simp [twoPoints, featureCollection]) rfl rfl rfl rfl
      (fun h => absurd h (by decide)) ⟨_, rfl⟩ (fun s => ⟨s, rfl⟩)
  have hval : mixinOverrides demoEnv (construct demoEnv) twoPoints .undefined =
      ⟨.ok [("drawingInfo", .obj [("renderer", demoEnv.pointRenderer)]),
        ("geometryType", .undefined), ("supportsCoordinatesQuantization", .bool false),
        ("extent", extentObject (jsNum 1) (jsNum 2) (jsNum 3) (jsNum 4) wgs84),
        ("minScale", .undefined), ("maxScale", .undefined)], []⟩ := rfl
  rw [hval] at hrun
  cases hrun
  exact ⟨_, hval, rfl, rfl, rfl⟩

/-! ## The geometry type -/

/-- C15. `mixinOverrides` hands the resolver the merged view `{ ...geojson, ...options }`,
in which a key of the options reads as in the options (so an explicit
`options.geometryType` is what the resolver sees) and every other key as in the document.
When the collaborators return and the base-level direct overrides leave `geometryType` and
`drawingInfo` alone, whatever the resolver returned, `undefined` included, is the
descriptor's `geometryType`, and it is the geometry type by which the renderer was selected:
`drawingInfo.renderer` is the renderer of the options when that is truthy and the default
for the resolved geometry type otherwise. -/
theorem geometryType_is_resolver_result (env : Env) (self : Fields)
    (geojson optionsArg : JSVal) (fields base dinfo : Fields) (g v : JSVal) (log : List String)
    (hopt : orEmptyObject optionsArg = .obj fields)
    (hnd : (fields.map Prod.fst).Nodup)
    (hndDoc : ((ownEntries geojson).map Prod.fst).Nodup)
    (hcap : getField fields "capabilities" ≠ .null)
    (hmix : env.tableMixinOverrides self geojson (.obj fields) = .ok base)
    (hdinfo : getField base "drawingInfo" = .obj dinfo)
    (hg : env.getGeometryTypeFromGeojson (spread geojson (.obj fields)) = .ok g)
    (hext : getLayerExtent env geojson (extentOptions (getField fields "inputCrs")
      (getField fields "sourceSR") (getField fields "extent")) = ⟨.ok v, log⟩)
    (hdirect : ∀ s, ∃ s', env.tableSetDirectOverrides s (.obj fields) = .ok s' ∧
      getField s' "geometryType" = getField s "geometryType" ∧
      getField s' "drawingInfo" = getField s "drawingInfo") :
    (∀ k, getProp (spread geojson (.obj fields)) k =
      .ok (if hasField fields k then getField fields k else getField (ownEntries geojson) k)) ∧
    ∃ d, mixinOverrides env self geojson optionsArg = ⟨.ok d, log⟩ ∧
      getField d "geometryType" = g ∧
      getProp (getField d "drawingInfo") "renderer" =
        .ok (if toBoolean (getField fields "renderer") then getField fields "renderer"
          else defaultRenderer env g) := by
  refine ⟨fun k => getProp_spread geojson fields k hnd hndDoc, ?_⟩
  obtain ⟨q, s6, s7, _, hs7, hrun, hgeo, _, _, hrend, _, _⟩ :=
    mixinOverrides_steps env self geojson optionsArg fields base dinfo g v log hopt hcap hmix
      hdinfo hg hext (fun s => (hdirect s).imp fun _ h => h.1)
  obtain ⟨s7', hs7', hkeepg, hkeepd⟩ := hdirect s6
  rw [hs7] at hs7'
  cases hs7'
  refine ⟨_, hrun, ?_, ?_⟩
  · rw [getField_merge_scales_other _ _ _ _ _ (by decide) (by decide), hkeepg, hgeo]
  · rw [getField_merge_scales_other _ _ _ _ _ (by decide) (by decide), hkeepd, hrend]

/-- C15, on the two-point document with options that name the polygon type: the resolver
sees that type, it is stored, and the polygon default is attached. -/
theorem geometryType_is_resolver_result_witness :
    getProp (spread twoPoints polygonOptions) "geometryType" =
      .ok (.str "esriGeometryPolygon") ∧
    getProp (spread twoPoints polygonOptions) "type" = .ok (.str "FeatureCollection") ∧
    ∃ d, mixinOverrides demoEnv (construct demoEnv) twoPoints polygonOptions = ⟨.ok d, []⟩ ∧
      getField d "geometryType" = .str "esriGeometryPolygon" ∧
      getProp (getField d "drawingInfo") "renderer" = .ok demoEnv.polygonRenderer := by
  obtain ⟨hview, d, hrun, hgeo, hrend⟩ :=
    geometryType_is_resolver_result demoEnv (construct demoEnv) twoPoints polygonOptions
      [("geometryType", .str "esriGeometryPolygon")] (construct demoEnv) []
      (.str "esriGeometryPolygon")
      (extentObject (jsNum 1) (jsNum 2) (jsNum 3) (jsNum 4) wgs84) []
      rfl (by simp) (by simp [twoPoints, featureCollection, ownEntries])
      (by simp [getField]) rfl rfl rfl rfl (fun s => ⟨s, rfl, rfl, rfl⟩)
  refine ⟨?_, ?_, d, hrun, hgeo, ?_⟩
  · rw [show polygonOptions = .obj [("geometryType", .str "esriGeometryPolygon")] from rfl,
      hview]
    rfl
  · rw [show polygonOptions = .obj [("geometryType", .str "esriGeometryPolygon")] from rfl,
      hview]
    rfl
  · rw [hrend]
    rfl

end Koop
